import Mathlib

/-!
# Shairport Sync JACK back end (`audio_jack.c`): frame store, drain callback, conversion

A shallow embedding of the state and functions of `audio_jack.c`.

* Pointers (`char *`) are natural-number addresses into one byte-addressed memory.
* `size_t` is taken to be 64 bits wide: every conversion to `size_t` is an explicit
  reduction modulo `2 ^ 64` (`to_size_t`).
* `sample_t` (a C `float`) is taken in exact arithmetic, as a rational number.
* A `short` is read from memory in little-endian byte order, two's complement.
* The two JACK port buffers returned by `jack_port_get_buffer`, the latency range
  returned by `jack_port_get_latency_range` and the clock `get_absolute_time_in_fp`
  are external: they are parameters of `jack_stream_write_cb` and of `jack_delay`.
* `int64_t` and `long` are 64 bits wide, two's complement: every result of that type is
  an explicit wrap into `[-2 ^ 63, 2 ^ 63)` (`to_int64`), and `>>` on it rounds down.
* The answers of the JACK library to `jack_start` and `jack_is_running` are parameters;
  `jack_start` also returns the list of the library calls it made.
* `play` is also given in the two sections its lock placement makes (`play_copy`,
  `play_commit`), and `play` and the drain callback once more with every memory access
  checked (`play_checked`, `jack_stream_write_cb_checked`).
-/

namespace AudioJack

/-! ## Data model -/

/-- One byte of memory. -/
abbrev Byte := Fin 256

/-- Byte-addressed memory. -/
abbrev Mem := Nat → Byte

/-- A JACK port buffer: an array of `sample_t`, indexed by position. -/
abbrev PortBuffer := Nat → ℚ

/-- The C enumeration `enum ift_type`. -/
inductive ift_type where
  | IFT_frame_left_sample
  | IFT_frame_right_sample
  deriving DecidableEq, Repr

/-- The C macro `buffer_size`: four seconds of 44.1 kHz stereo 16-bit audio, in bytes. -/
def buffer_size : Nat := 44100 * 4 * 2 * 2

/-- The C constant `SHRT_MAX`. -/
def SHRT_MAX : Int := 32767

/-- The C constant `SHRT_MIN`. -/
def SHRT_MIN : Int := -32768

/-- Conversion of a mathematical integer to `size_t` (64 bits, wrapping). -/
def to_size_t (z : Int) : Nat := (z % 2 ^ 64).toNat

/-- Conversion of a natural number to `jack_nframes_t` (32 bits, wrapping). -/
def to_nframes (n : Nat) : Nat := n % 2 ^ 32

/-- The C struct `jack_latency_range_t`. -/
structure jack_latency_range_t where
  min : Nat
  max : Nat
  deriving DecidableEq, Repr

/-- The global variables of `audio_jack.c`, together with the process memory. -/
structure State where
  mem : Mem
  audio_lmb : Nat
  audio_umb : Nat
  audio_toq : Nat
  audio_eoq : Nat
  audio_occupancy : Nat
  client_is_open : Int
  client : Nat
  left_port : Nat
  right_port : Nat
  sample_rate : Nat
  latest_latency_range : jack_latency_range_t
  time_of_latest_latency_range : Int

/-! ## Memory primitives -/

/-- The C library call `memcpy(dst, src, n)`, the source being given as the function from
an offset to the byte stored at `src + offset`. -/
def memcpy (mem : Mem) (dst : Nat) (src : Nat → Byte) (n : Nat) : Mem :=
  fun a => if dst ≤ a ∧ a < dst + n then src (a - dst) else mem a

/-- Pointer arithmetic on the source pointer of `play`: the view of `buf` after
`buf += k`. -/
def advance (buf : Nat → Byte) (k : Nat) : Nat → Byte :=
  fun i => buf (k + i)

/-- The value of the `short` made of the low byte `lo` and the high byte `hi`. -/
def short_of_bytes (lo hi : Byte) : Int :=
  let u : Nat := lo.val + 256 * hi.val
  if u < 32768 then (u : Int) else (u : Int) - 65536

/-- The `short` stored at address `a` (the C expression `*ifp`). -/
def read_short (mem : Mem) (a : Nat) : Int :=
  short_of_bytes (mem a) (mem (a + 1))

/-! ## `play` -/

/-- The C function `play(buf, samples)`: returns the status and the new state. The `int`
product `samples * 2 * 2` is taken in the integers before its conversion to `size_t`;
`buf` is the function from an offset to the byte the caller stored at `buf + offset`. -/
def play (s : State) (buf : Nat → Byte) (samples : Int) : Int × State :=
  let bytes_to_transfer : Nat := to_size_t (samples * 2 * 2)
  let space_to_end_of_buffer : Nat := to_size_t ((s.audio_umb : Int) - (s.audio_eoq : Int))
  if space_to_end_of_buffer ≥ bytes_to_transfer then
    let mem1 := memcpy s.mem s.audio_eoq buf bytes_to_transfer
    (0, { s with
            mem := mem1
            audio_occupancy := to_size_t ((s.audio_occupancy : Int) + samples)
            audio_eoq := s.audio_eoq + bytes_to_transfer })
  else
    let mem1 := memcpy s.mem s.audio_eoq buf space_to_end_of_buffer
    let buf1 := advance buf space_to_end_of_buffer
    let mem2 := memcpy mem1 s.audio_lmb buf1 (bytes_to_transfer - space_to_end_of_buffer)
    (0, { s with
            mem := mem2
            audio_occupancy := to_size_t ((s.audio_occupancy : Int) + samples)
            audio_eoq := s.audio_lmb + bytes_to_transfer - space_to_end_of_buffer })

/-! ## `deinterleave_and_convert_stream` -/

/-- The body of the conversion loop: a `short` sample rescaled to a `sample_t`. -/
def convert_sample (sample : Int) : ℚ :=
  if sample ≥ 0 then (1 * (sample : ℚ)) / (SHRT_MAX : ℚ)
  else (-(1 * (sample : ℚ))) / (SHRT_MIN : ℚ)

/-- The `for` loop of `deinterleave_and_convert_stream`, with `remaining` iterations
left, `ifp` the address of the next sample read and `fp` the index of the next
sample written. -/
def convert_loop (mem : Mem) : Nat → Nat → Nat → PortBuffer → PortBuffer
  | 0, _, _, out => out
  | remaining + 1, ifp, fp, out =>
      convert_loop mem remaining (ifp + 2 + 2) (fp + 1)
        (Function.update out fp (convert_sample (read_short mem ifp)))

/-- The C function `deinterleave_and_convert_stream`: `interleaved_frames` is the address
of the first frame, `fp` the index in the port buffer `out` at which writing starts. -/
def deinterleave_and_convert_stream (mem : Mem) (interleaved_frames : Nat)
    (out : PortBuffer) (fp : Nat) (number_of_frames : Nat) (side : ift_type) : PortBuffer :=
  let ifp := if side = ift_type.IFT_frame_right_sample then interleaved_frames + 2
             else interleaved_frames
  convert_loop mem number_of_frames ifp fp out

/-! ## `jack_stream_write_cb` -/

/-- The silence loop at the end of `jack_stream_write_cb`: writes `0.0` to both port
buffers at the `count` positions from `i` on. -/
def silence_loop : Nat → Nat → PortBuffer × PortBuffer → PortBuffer × PortBuffer
  | 0, _, bufs => bufs
  | count + 1, i, bufs =>
      silence_loop count (i + 1) (Function.update bufs.1 i 0, Function.update bufs.2 i 0)

/-- What `jack_stream_write_cb` returns and leaves behind. -/
structure DrainResult where
  status : Int
  state : State
  left_buffer : PortBuffer
  right_buffer : PortBuffer

/-- The C function `jack_stream_write_cb(nframes, arg)`. The port buffers on entry, the
latency range reported for the left port and the clock reading are parameters. In the
source `nframes` is a `jack_nframes_t`, below `2 ^ 32`; any natural number is accepted
here. The triple `moved` is what the locked section produces: the two port buffers
after the conversion and the new value of `audio_toq`. -/
def jack_stream_write_cb (s : State) (nframes : Nat) (left_buffer right_buffer : PortBuffer)
    (latency : jack_latency_range_t) (now : Int) : DrainResult :=
  let frames_we_can_transfer : Nat :=
    if s.audio_occupancy < nframes then s.audio_occupancy else nframes
  let to_end : Int := (s.audio_umb : Int) - (s.audio_toq : Int)
  let moved : PortBuffer × PortBuffer × Nat :=
    if to_size_t ((frames_we_can_transfer : Int) * 2 * 2) ≤ to_size_t to_end then
      let l := deinterleave_and_convert_stream s.mem s.audio_toq left_buffer 0
                 (to_nframes frames_we_can_transfer) ift_type.IFT_frame_left_sample
      let r := deinterleave_and_convert_stream s.mem s.audio_toq right_buffer 0
                 (to_nframes frames_we_can_transfer) ift_type.IFT_frame_right_sample
      (l, r, s.audio_toq + to_size_t ((frames_we_can_transfer : Int) * 2 * 2))
    else
      let first_portion_to_write : Nat := to_size_t (Int.tdiv to_end (2 * 2))
      let l1 := if first_portion_to_write ≠ 0 then
                  deinterleave_and_convert_stream s.mem s.audio_toq left_buffer 0
                    (to_nframes first_portion_to_write) ift_type.IFT_frame_left_sample
                else left_buffer
      let r1 := if first_portion_to_write ≠ 0 then
                  deinterleave_and_convert_stream s.mem s.audio_toq right_buffer 0
                    (to_nframes first_portion_to_write) ift_type.IFT_frame_right_sample
                else right_buffer
      let rest : Nat :=
        to_size_t ((frames_we_can_transfer : Int) - (first_portion_to_write : Int))
      let l2 := deinterleave_and_convert_stream s.mem s.audio_lmb l1 first_portion_to_write
                  (to_nframes rest) ift_type.IFT_frame_left_sample
      let r2 := deinterleave_and_convert_stream s.mem s.audio_lmb r1 first_portion_to_write
                  (to_nframes rest) ift_type.IFT_frame_right_sample
      (l2, r2, s.audio_lmb + to_size_t ((rest : Int) * 2 * 2))
  let i : Nat := to_nframes frames_we_can_transfer
  let silenced := silence_loop (nframes - i) i (moved.1, moved.2.1)
  { status := 0
    state := { s with
                 audio_toq := moved.2.2
                 audio_occupancy :=
                   to_size_t ((s.audio_occupancy : Int) - (frames_we_can_transfer : Int))
                 latest_latency_range := latency
                 time_of_latest_latency_range := now }
    left_buffer := silenced.1
    right_buffer := silenced.2 }

/-! ## `init` and `jack_flush` -/

/-- The C function `init(argc, argv)`; `malloc_result` is what `malloc(buffer_size)`
returns. A null result makes `init` call `die`, which ends the process: `none`. -/
def init (s : State) (malloc_result : Nat) : Option (Int × State) :=
  if malloc_result = 0 then none
  else
    some (0, { s with
                 client_is_open := 0
                 audio_lmb := malloc_result
                 audio_toq := malloc_result
                 audio_eoq := malloc_result
                 audio_umb := malloc_result + buffer_size
                 audio_occupancy := 0 })

/-- The C function `jack_flush()`. -/
def jack_flush (s : State) : State :=
  { s with
      audio_toq := s.audio_lmb
      audio_eoq := s.audio_lmb
      audio_umb := s.audio_lmb + buffer_size
      audio_occupancy := 0 }

/-! ## The abstract view of the frame store -/

/-- One stereo frame: the two bytes of the left sample, then the two of the right. -/
structure Frame where
  b0 : Byte
  b1 : Byte
  b2 : Byte
  b3 : Byte
  deriving DecidableEq, Repr

/-- The left sample of a frame. -/
def Frame.left (f : Frame) : Int := short_of_bytes f.b0 f.b1

/-- The right sample of a frame. -/
def Frame.right (f : Frame) : Int := short_of_bytes f.b2 f.b3

/-- The frame stored in the four bytes from address `a` on. -/
def frame_at (mem : Nat → Byte) (a : Nat) : Frame :=
  { b0 := mem a, b1 := mem (a + 1), b2 := mem (a + 2), b3 := mem (a + 3) }

/-- The `n` frames of an input run, in order. -/
def frames (buf : Nat → Byte) (n : Nat) : List Frame :=
  (List.range n).map (fun i => frame_at buf (4 * i))

/-- The address of the `i`-th frame counted from the head cursor forward, wrapping at
the upper bound of the buffer. -/
def queue_addr (s : State) (i : Nat) : Nat :=
  if s.audio_toq + 4 * i < s.audio_umb then s.audio_toq + 4 * i
  else s.audio_lmb + (s.audio_toq + 4 * i - s.audio_umb)

/-- The buffered frames: `audio_occupancy` frames read from the head cursor forward,
wrapping at the upper bound of the buffer. -/
def contents (s : State) : List Frame :=
  (List.range s.audio_occupancy).map (fun i => frame_at s.mem (queue_addr s i))

/-- The store invariants: the buffer is `buffer_size` bytes long, both cursors lie
between the bounds (the upper bound included) at a multiple of four bytes from the
lower bound, the occupancy fits, and the tail is `4 * audio_occupancy` bytes ahead of
the head modulo `buffer_size`. -/
def Inv (s : State) : Prop :=
  s.audio_umb = s.audio_lmb + buffer_size ∧
  s.audio_lmb ≤ s.audio_toq ∧ s.audio_toq ≤ s.audio_umb ∧
  s.audio_lmb ≤ s.audio_eoq ∧ s.audio_eoq ≤ s.audio_umb ∧
  (s.audio_toq - s.audio_lmb) % 4 = 0 ∧
  (s.audio_eoq - s.audio_lmb) % 4 = 0 ∧
  s.audio_occupancy * 4 ≤ buffer_size ∧
  (s.audio_toq - s.audio_lmb + 4 * s.audio_occupancy) % buffer_size
    = (s.audio_eoq - s.audio_lmb) % buffer_size

instance (s : State) : Decidable (Inv s) := by
  unfold Inv
  infer_instance

/-- States reached from `init` by `play`, `jack_stream_write_cb` and `jack_flush`, every
`play` keeping the occupancy within the capacity. The second component is the queue
of frames pushed and not yet drained or flushed, oldest first. -/
inductive Reachable : State → List Frame → Prop where
  | init (s0 : State) (malloc_result : Nat) (r : Int) (s : State)
      (h : init s0 malloc_result = some (r, s)) : Reachable s []
  | play (s : State) (q : List Frame) (buf : Nat → Byte) (samples : Int)
      (hs : Reachable s q) (h0 : 0 ≤ samples)
      (hcap : (s.audio_occupancy : Int) + samples ≤ ((buffer_size / 4 : Nat) : Int)) :
      Reachable (play s buf samples).2 (q ++ frames buf samples.toNat)
  | drain (s : State) (q : List Frame) (nframes : Nat) (left_buffer right_buffer : PortBuffer)
      (latency : jack_latency_range_t) (now : Int) (hs : Reachable s q) :
      Reachable (jack_stream_write_cb s nframes left_buffer right_buffer latency now).state
        (q.drop nframes)
  | flush (s : State) (q : List Frame) (hs : Reachable s q) : Reachable (jack_flush s) []

/-! ## Auxiliary definitions for the statements, and sample data -/

/-- The frame count the drain callback transfers. -/
def transferable (s : State) (nframes : Nat) : Nat := min nframes s.audio_occupancy

/-- The store of `s` emptied, with both cursors `p` bytes past the lower bound. -/
def empty_at (s : State) (p : Nat) : State :=
  { s with
      audio_toq := s.audio_lmb + p
      audio_eoq := s.audio_lmb + p
      audio_occupancy := 0 }

/-- The globals before `init` has run: zero-initialised, over a zeroed memory. -/
def boot_state : State :=
  { mem := fun _ => 0
    audio_lmb := 0
    audio_umb := 0
    audio_toq := 0
    audio_eoq := 0
    audio_occupancy := 0
    client_is_open := 0
    client := 0
    left_port := 0
    right_port := 0
    sample_rate := 0
    latest_latency_range := { min := 0, max := 0 }
    time_of_latest_latency_range := 0 }

/-- The state `init` leaves behind when `malloc` returns the address 4096. -/
def fresh_state : State :=
  { boot_state with
      audio_lmb := 4096
      audio_toq := 4096
      audio_eoq := 4096
      audio_umb := 4096 + buffer_size }

/-- An input run whose byte at offset `i` is `i` modulo 256. -/
def ramp : Nat → Byte := fun i => Fin.ofNat i

/-- An input run whose every byte is 7. -/
def sevens_bytes : Nat → Byte := fun _ => 7

/-- A port buffer holding the value 7 at every position. -/
def sevens : PortBuffer := fun _ => 7

/-- The store after `init` and a `play` of 50 frames of `ramp`. -/
def fifty_state : State := (play fresh_state ramp 50).2

/-- The store after `init` and a `play` of 176400 frames of `ramp`, which fills it. -/
def full_state : State := (play fresh_state ramp 176400).2

/-- The store with 100 frames of `ramp` buffered from 200 bytes before the upper bound
on, so that the buffered run crosses the upper bound. -/
def wrapped_state : State := (play (empty_at fresh_state 705400) ramp 100).2

/-! ## `jack_delay` -/

/-- Conversion of a mathematical integer to `int64_t` (and to `long`, taken to be 64
bits wide): two's complement, wrapping. -/
def to_int64 (z : Int) : Int := (z + 2 ^ 63) % 2 ^ 64 - 2 ^ 63

/-- The local `frames_processed_since_latest_latency_check` of `jack_delay`:
`(delta * 44100) >> 32` in `int64_t` arithmetic, the right shift being arithmetic
(rounding towards minus infinity). -/
def frames_processed_since_latest_latency_check (s : State) (time_now : Int) : Int :=
  let delta : Int := to_int64 (time_now - s.time_of_latest_latency_range)
  to_int64 (delta * 44100) / 2 ^ 32

/-- The C function `jack_delay(the_delay)`: returns the status and the value stored in
`*the_delay`. The reading of `get_absolute_time_in_fp` is the parameter `time_now`.
The sum is formed in `size_t` (the type of `audio_occupancy`) and stored in a `long`. -/
def jack_delay (s : State) (time_now : Int) : Int × Int :=
  let frames := frames_processed_since_latest_latency_check s time_now
  (0, to_int64 (to_size_t
        ((s.latest_latency_range.min : Int) + (s.audio_occupancy : Int) - frames)))

/-- A state whose latency snapshot was never taken (time 0, minimum latency 0), with an
empty store: what `init` leaves when the drain callback has not run yet. -/
def never_drained_state : State := fresh_state

/-- A state with 50 frames buffered and a latency snapshot of minimum 256 frames taken
at time `2 ^ 40`. -/
def snapshot_state : State :=
  { fifty_state with
      latest_latency_range := { min := 256, max := 512 }
      time_of_latest_latency_range := 2 ^ 40 }

/-! ## `jack_start` and `jack_is_running` -/

/-- The calls `jack_start` makes to the JACK library. -/
inductive JackCall where
  | jack_client_open
  | jack_set_process_callback
  | jack_port_register_left
  | jack_port_register_right
  | jack_get_sample_rate
  | jack_activate
  deriving DecidableEq, Repr

/-- What the JACK library answers to the calls of `jack_start`: the client handle
returned by `jack_client_open` (0 for `NULL`), the two port handles, the sample rate,
and the status returned by `jack_activate` (0 for success). -/
structure JackReplies where
  client : Nat
  left_port : Nat
  right_port : Nat
  sample_rate : Nat
  activate : Int
  deriving DecidableEq, Repr

/-- The C function `jack_start(i_sample_rate, i_sample_format)`: returns the new state
and the calls made to the JACK library, in order. Diagnostic output (`debug`) is not
modelled. -/
def jack_start (s : State) (jack : JackReplies) (i_sample_rate i_sample_format : Int) :
    State × List JackCall :=
  if s.client_is_open = 0 then
    let s1 := { s with client := jack.client }
    if jack.client ≠ 0 then
      let s2 := { s1 with
                    left_port := jack.left_port
                    right_port := jack.right_port
                    sample_rate := jack.sample_rate }
      let calls := [JackCall.jack_client_open, JackCall.jack_set_process_callback,
                    JackCall.jack_port_register_left, JackCall.jack_port_register_right,
                    JackCall.jack_get_sample_rate, JackCall.jack_activate]
      if jack.activate ≠ 0 then (s2, calls)
      else ({ s2 with client_is_open := 1 }, calls)
    else (s1, [JackCall.jack_client_open])
  else (s, [])

/-- The enumeration `jack_transport_state_t` of the JACK library. -/
inductive jack_transport_state_t where
  | JackTransportStopped
  | JackTransportRolling
  | JackTransportLooping
  | JackTransportStarting
  | JackTransportNetStarting
  deriving DecidableEq, Repr

/-- The C function `jack_is_running()`: returns the reply and the state it leaves.
What `jack_transport_query` answers is the parameter `transport_query`. -/
def jack_is_running (s : State) (transport_query : jack_transport_state_t) : Int × State :=
  let reply : Int := -1
  if s.client_is_open ≠ 0 then
    let transport_state := transport_query
    if transport_state = jack_transport_state_t.JackTransportRolling then (0, s)
    else (-2, s)
  else (reply, s)

/-- The state `fifty_state` with the connection open: client 11, ports 21 and 22, 48 kHz. -/
def open_state : State :=
  { fifty_state with
      client_is_open := 1
      client := 11
      left_port := 21
      right_port := 22
      sample_rate := 48000 }

/-- Replies of a JACK library whose client opens but cannot be activated. -/
def no_activation : JackReplies :=
  { client := 12, left_port := 31, right_port := 32, sample_rate := 44100, activate := 1 }

/-- Replies of a JACK library where everything succeeds. -/
def all_fine : JackReplies :=
  { client := 12, left_port := 31, right_port := 32, sample_rate := 44100, activate := 0 }

/-! ## The cursor/occupancy consistency predicate -/

/-- The cursor/occupancy consistency predicate: the buffer is `buffer_size` bytes long,
the offsets of head and tail from the lower bound are multiples of four lying in
`[0, buffer_size]`, and tail offset minus head offset is congruent to
`4 * audio_occupancy` modulo `buffer_size`. -/
def Consistent (s : State) : Prop :=
  s.audio_umb = s.audio_lmb + buffer_size ∧
  (s.audio_lmb ≤ s.audio_toq ∧ (s.audio_toq - s.audio_lmb) % 4 = 0 ∧
    s.audio_toq - s.audio_lmb ≤ buffer_size) ∧
  (s.audio_lmb ≤ s.audio_eoq ∧ (s.audio_eoq - s.audio_lmb) % 4 = 0 ∧
    s.audio_eoq - s.audio_lmb ≤ buffer_size) ∧
  (((s.audio_eoq - s.audio_lmb : Nat) : Int) - ((s.audio_toq - s.audio_lmb : Nat) : Int))
      % (buffer_size : Int)
    = (4 * (s.audio_occupancy : Int)) % (buffer_size : Int)

instance (s : State) : Decidable (Consistent s) := by
  unfold Consistent
  infer_instance

/-! ## The functions with every memory access checked

The same functions once more, returning `none` as soon as a byte outside the allocated
block `[lo, hi)` is read or written, or a port buffer is written at an index that is
not below its length `len`. -/

/-- Checked `memcpy`: every byte written, `dst ≤ a < dst + n`, must lie in `[lo, hi)`. -/
def memcpy_checked (lo hi : Nat) (mem : Mem) (dst : Nat) (src : Nat → Byte) (n : Nat) :
    Option Mem :=
  if n = 0 ∨ (lo ≤ dst ∧ dst + n ≤ hi) then some (memcpy mem dst src n) else none

/-- Checked `*ifp`: both bytes of the `short` must lie in `[lo, hi)`. -/
def read_short_checked (lo hi : Nat) (mem : Mem) (a : Nat) : Option Int :=
  if lo ≤ a ∧ a + 1 < hi then some (read_short mem a) else none

/-- Checked write `*fp = v` into a port buffer of `len` samples. -/
def write_sample_checked (len : Nat) (out : PortBuffer) (fp : Nat) (v : ℚ) : Option PortBuffer :=
  if fp < len then some (Function.update out fp v) else none

/-- The function `play` with checked writes into the block of `buffer_size` bytes at
`audio_lmb`. -/
def play_checked (s : State) (buf : Nat → Byte) (samples : Int) : Option (Int × State) :=
  let lo := s.audio_lmb
  let hi := s.audio_lmb + buffer_size
  let bytes_to_transfer : Nat := to_size_t (samples * 2 * 2)
  let space_to_end_of_buffer : Nat := to_size_t ((s.audio_umb : Int) - (s.audio_eoq : Int))
  if space_to_end_of_buffer ≥ bytes_to_transfer then
    (memcpy_checked lo hi s.mem s.audio_eoq buf bytes_to_transfer).bind fun mem1 =>
    some (0, { s with
                 mem := mem1
                 audio_occupancy := to_size_t ((s.audio_occupancy : Int) + samples)
                 audio_eoq := s.audio_eoq + bytes_to_transfer })
  else
    (memcpy_checked lo hi s.mem s.audio_eoq buf space_to_end_of_buffer).bind fun mem1 =>
    let buf1 := advance buf space_to_end_of_buffer
    (memcpy_checked lo hi mem1 s.audio_lmb buf1
      (bytes_to_transfer - space_to_end_of_buffer)).bind fun mem2 =>
    some (0, { s with
                 mem := mem2
                 audio_occupancy := to_size_t ((s.audio_occupancy : Int) + samples)
                 audio_eoq := s.audio_lmb + bytes_to_transfer - space_to_end_of_buffer })

/-- The loop of `deinterleave_and_convert_stream` with checked reads and writes. -/
def convert_loop_checked (lo hi len : Nat) (mem : Mem) :
    Nat → Nat → Nat → PortBuffer → Option PortBuffer
  | 0, _, _, out => some out
  | remaining + 1, ifp, fp, out =>
      (read_short_checked lo hi mem ifp).bind fun sample =>
      (write_sample_checked len out fp (convert_sample sample)).bind fun out1 =>
      convert_loop_checked lo hi len mem remaining (ifp + 2 + 2) (fp + 1) out1

/-- The function `deinterleave_and_convert_stream` with checked reads and writes. -/
def deinterleave_and_convert_stream_checked (lo hi len : Nat) (mem : Mem)
    (interleaved_frames : Nat) (out : PortBuffer) (fp : Nat) (number_of_frames : Nat)
    (side : ift_type) : Option PortBuffer :=
  let ifp := if side = ift_type.IFT_frame_right_sample then interleaved_frames + 2
             else interleaved_frames
  convert_loop_checked lo hi len mem number_of_frames ifp fp out

/-- The silence loop with checked writes. -/
def silence_loop_checked (len : Nat) :
    Nat → Nat → PortBuffer × PortBuffer → Option (PortBuffer × PortBuffer)
  | 0, _, bufs => some bufs
  | count + 1, i, bufs =>
      (write_sample_checked len bufs.1 i 0).bind fun l =>
      (write_sample_checked len bufs.2 i 0).bind fun r =>
      silence_loop_checked len count (i + 1) (l, r)

/-- The function `jack_stream_write_cb` with checked reads of the block of `buffer_size`
bytes at `audio_lmb` and checked writes into the two port buffers of `nframes` samples. -/
def jack_stream_write_cb_checked (s : State) (nframes : Nat)
    (left_buffer right_buffer : PortBuffer) (latency : jack_latency_range_t) (now : Int) :
    Option DrainResult :=
  let lo := s.audio_lmb
  let hi := s.audio_lmb + buffer_size
  let frames_we_can_transfer : Nat :=
    if s.audio_occupancy < nframes then s.audio_occupancy else nframes
  let to_end : Int := (s.audio_umb : Int) - (s.audio_toq : Int)
  let moved : Option (PortBuffer × PortBuffer × Nat) :=
    if to_size_t ((frames_we_can_transfer : Int) * 2 * 2) ≤ to_size_t to_end then
      (deinterleave_and_convert_stream_checked lo hi nframes s.mem s.audio_toq left_buffer 0
        (to_nframes frames_we_can_transfer) ift_type.IFT_frame_left_sample).bind fun l =>
      (deinterleave_and_convert_stream_checked lo hi nframes s.mem s.audio_toq right_buffer 0
        (to_nframes frames_we_can_transfer) ift_type.IFT_frame_right_sample).bind fun r =>
      some (l, r, s.audio_toq + to_size_t ((frames_we_can_transfer : Int) * 2 * 2))
    else
      let first_portion_to_write : Nat := to_size_t (Int.tdiv to_end (2 * 2))
      (if first_portion_to_write ≠ 0 then
          deinterleave_and_convert_stream_checked lo hi nframes s.mem s.audio_toq left_buffer 0
            (to_nframes first_portion_to_write) ift_type.IFT_frame_left_sample
        else some left_buffer).bind fun l1 =>
      (if first_portion_to_write ≠ 0 then
          deinterleave_and_convert_stream_checked lo hi nframes s.mem s.audio_toq right_buffer 0
            (to_nframes first_portion_to_write) ift_type.IFT_frame_right_sample
        else some right_buffer).bind fun r1 =>
      let rest : Nat :=
        to_size_t ((frames_we_can_transfer : Int) - (first_portion_to_write : Int))
      (deinterleave_and_convert_stream_checked lo hi nframes s.mem s.audio_lmb l1
        first_portion_to_write (to_nframes rest) ift_type.IFT_frame_left_sample).bind fun l2 =>
      (deinterleave_and_convert_stream_checked lo hi nframes s.mem s.audio_lmb r1
        first_portion_to_write (to_nframes rest) ift_type.IFT_frame_right_sample).bind fun r2 =>
      some (l2, r2, s.audio_lmb + to_size_t ((rest : Int) * 2 * 2))
  moved.bind fun moved =>
  let i : Nat := to_nframes frames_we_can_transfer
  (silence_loop_checked nframes (nframes - i) i (moved.1, moved.2.1)).bind fun silenced =>
  some
    { status := 0
      state := { s with
                   audio_toq := moved.2.2
                   audio_occupancy :=
                     to_size_t ((s.audio_occupancy : Int) - (frames_we_can_transfer : Int))
                   latest_latency_range := latency
                   time_of_latest_latency_range := now }
      left_buffer := silenced.1
      right_buffer := silenced.2 }

/-- The empty store with both cursors at the upper bound. -/
def upper_state : State := empty_at fresh_state 705600

/-- A corrupted store: 50 frames counted, the head cursor at the end of the allocated
block and the upper bound 400 bytes beyond it. -/
def beyond_state : State :=
  { fifty_state with audio_toq := 4096 + buffer_size, audio_umb := 4096 + buffer_size + 400 }

/-! ## The two phases of `play` around the lock -/

/-- The locals of `play` that are computed before the lock is taken and used after. -/
structure PlayLocals where
  bytes_to_transfer : Nat
  space_to_end_of_buffer : Nat
  deriving DecidableEq, Repr

/-- The part of `play` that runs before `pthread_mutex_lock`: the two sizes are computed from
`audio_umb` and `audio_eoq`, and the input is copied into the buffer by one `memcpy` or
by two. -/
def play_copy (s : State) (buf : Nat → Byte) (samples : Int) : State × PlayLocals :=
  let bytes_to_transfer : Nat := to_size_t (samples * 2 * 2)
  let space_to_end_of_buffer : Nat := to_size_t ((s.audio_umb : Int) - (s.audio_eoq : Int))
  let locals : PlayLocals :=
    { bytes_to_transfer := bytes_to_transfer, space_to_end_of_buffer := space_to_end_of_buffer }
  if space_to_end_of_buffer ≥ bytes_to_transfer then
    let mem1 := memcpy s.mem s.audio_eoq buf bytes_to_transfer
    ({ s with mem := mem1 }, locals)
  else
    let mem1 := memcpy s.mem s.audio_eoq buf space_to_end_of_buffer
    let buf1 := advance buf space_to_end_of_buffer
    let mem2 := memcpy mem1 s.audio_lmb buf1 (bytes_to_transfer - space_to_end_of_buffer)
    ({ s with mem := mem2 }, locals)

/-- The part of `play` between `pthread_mutex_lock` and `pthread_mutex_unlock`, in the
branch the locals select, followed by the `return 0`. -/
def play_commit (s : State) (locals : PlayLocals) (samples : Int) : Int × State :=
  if locals.space_to_end_of_buffer ≥ locals.bytes_to_transfer then
    (0, { s with
            audio_occupancy := to_size_t ((s.audio_occupancy : Int) + samples)
            audio_eoq := s.audio_eoq + locals.bytes_to_transfer })
  else
    (0, { s with
            audio_occupancy := to_size_t ((s.audio_occupancy : Int) + samples)
            audio_eoq := s.audio_lmb + locals.bytes_to_transfer - locals.space_to_end_of_buffer })

/-! ## Arithmetic helpers -/

theorem buffer_size_eq : buffer_size = 705600 := by decide

theorem to_size_t_of_nat (n : Nat) (h : n < 2 ^ 64) : to_size_t (n : Int) = n := by
  unfold to_size_t
  omega

theorem to_nframes_of_lt (n : Nat) (h : n < 2 ^ 32) : to_nframes n = n := by
  unfold to_nframes
  omega

/-! ## The conversion and silence loops, pointwise -/

theorem convert_loop_apply (mem : Mem) (k ifp fp : Nat) (out : PortBuffer) (j : Nat) :
    convert_loop mem k ifp fp out j =
      if fp ≤ j ∧ j < fp + k then convert_sample (read_short mem (ifp + 4 * (j - fp)))
      else out j := by
  induction k generalizing ifp fp out with
  | zero =>
      simp only [convert_loop]
      rw [if_neg (by omega)]
  | succ k ih =>
      simp only [convert_loop]
      rw [ih]
      by_cases h1 : fp + 1 ≤ j ∧ j < fp + 1 + k
      · rw [if_pos h1, if_pos (by omega)]
        congr 2
        omega
      · rw [if_neg h1]
        by_cases h2 : j = fp
        · subst h2
          rw [Function.update_same, if_pos (by omega)]
          simp
        · rw [Function.update_noteq h2, if_neg (by omega)]

theorem silence_loop_fst (c i : Nat) (bufs : PortBuffer × PortBuffer) (j : Nat) :
    (silence_loop c i bufs).1 j = if i ≤ j ∧ j < i + c then 0 else bufs.1 j := by
  induction c generalizing i bufs with
  | zero =>
      simp only [silence_loop]
      rw [if_neg (by omega)]
  | succ c ih =>
      simp only [silence_loop]
      rw [ih]
      by_cases h1 : i + 1 ≤ j ∧ j < i + 1 + c
      · rw [if_pos h1, if_pos (by omega)]
      · rw [if_neg h1]
        by_cases h2 : j = i
        · subst h2
          simp only [Function.update_same]
          rw [if_pos (by omega)]
        · simp only [Function.update_noteq h2]
          rw [if_neg (by omega)]

theorem silence_loop_snd (c i : Nat) (bufs : PortBuffer × PortBuffer) (j : Nat) :
    (silence_loop c i bufs).2 j = if i ≤ j ∧ j < i + c then 0 else bufs.2 j := by
  induction c generalizing i bufs with
  | zero =>
      simp only [silence_loop]
      rw [if_neg (by omega)]
  | succ c ih =>
      simp only [silence_loop]
      rw [ih]
      by_cases h1 : i + 1 ≤ j ∧ j < i + 1 + c
      · rw [if_pos h1, if_pos (by omega)]
      · rw [if_neg h1]
        by_cases h2 : j = i
        · subst h2
          simp only [Function.update_same]
          rw [if_pos (by omega)]
        · simp only [Function.update_noteq h2]
          rw [if_neg (by omega)]

/-! ## The drain callback in natural-number arithmetic -/

theorem frame_at_left (mem : Mem) (a : Nat) : (frame_at mem a).left = read_short mem a := rfl

theorem frame_at_right (mem : Mem) (a : Nat) :
    (frame_at mem a).right = read_short mem (a + 2) := rfl

theorem deinterleave_left_apply (mem : Mem) (a : Nat) (out : PortBuffer) (fp n j : Nat) :
    deinterleave_and_convert_stream mem a out fp n ift_type.IFT_frame_left_sample j =
      if fp ≤ j ∧ j < fp + n then convert_sample (frame_at mem (a + 4 * (j - fp))).left
      else out j := by
  unfold deinterleave_and_convert_stream
  simp only [convert_loop_apply, frame_at_left]
  rfl

theorem deinterleave_right_apply (mem : Mem) (a : Nat) (out : PortBuffer) (fp n j : Nat) :
    deinterleave_and_convert_stream mem a out fp n ift_type.IFT_frame_right_sample j =
      if fp ≤ j ∧ j < fp + n then convert_sample (frame_at mem (a + 4 * (j - fp))).right
      else out j := by
  unfold deinterleave_and_convert_stream
  simp only [convert_loop_apply, frame_at_right]
  by_cases h : fp ≤ j ∧ j < fp + n
  · rw [if_pos h, if_pos h]
    congr 2
    show a + 2 + 4 * (j - fp) = a + 4 * (j - fp) + 2
    omega
  · rw [if_neg h, if_neg h]

theorem drain_left_apply (s : State) (hs : Inv s) (nframes : Nat) (L R : PortBuffer)
    (lat : jack_latency_range_t) (now : Int) (j : Nat) :
    (jack_stream_write_cb s nframes L R lat now).left_buffer j =
      if j < transferable s nframes then convert_sample (frame_at s.mem (queue_addr s j)).left
      else if j < nframes then 0 else L j := by
  obtain ⟨h1, h2, h3, h4, h5, h6, h7, h8, h9⟩ := hs
  rw [buffer_size_eq] at h1 h8 h9
  unfold jack_stream_write_cb transferable
  simp only []
  have hk : (if s.audio_occupancy < nframes then s.audio_occupancy else nframes)
      = min nframes s.audio_occupancy := by
    split <;> omega
  rw [hk]
  generalize hkk : min nframes s.audio_occupancy = k
  have hk1 : k ≤ s.audio_occupancy := by omega
  have hk2 : k ≤ nframes := by omega
  have e1 : to_size_t ((k : Int) * 2 * 2) = 4 * k := by unfold to_size_t; omega
  have e2 : to_size_t ((s.audio_umb : Int) - (s.audio_toq : Int)) = s.audio_umb - s.audio_toq := by
    unfold to_size_t; omega
  have e3 : to_size_t (((s.audio_umb : Int) - (s.audio_toq : Int)).tdiv (2 * 2))
      = (s.audio_umb - s.audio_toq) / 4 := by
    rw [Int.tdiv_eq_ediv (by omega) (by omega)]
    unfold to_size_t; omega
  have e4 : to_nframes k = k := by unfold to_nframes; omega
  simp only [e1, e2, e3, e4]
  rw [silence_loop_fst]
  by_cases hb : 4 * k ≤ s.audio_umb - s.audio_toq
  · simp only [if_pos hb, deinterleave_left_apply, queue_addr]
    by_cases hj : j < k
    · rw [if_neg (by omega), if_pos (by omega), if_pos hj, if_pos (by omega)]
      rfl
    · rw [if_neg hj]
      by_cases hn : j < nframes
      · rw [if_pos (by omega), if_pos hn]
      · rw [if_neg (by omega), if_neg (by omega), if_neg hn]
  · generalize hf : (s.audio_umb - s.audio_toq) / 4 = f at *
    have hf4 : 4 * f = s.audio_umb - s.audio_toq := by omega
    have e5 : to_size_t ((k : Int) - (f : Int)) = k - f := by unfold to_size_t; omega
    have e6 : to_nframes (k - f) = k - f := by unfold to_nframes; omega
    have e7 : to_nframes f = f := by unfold to_nframes; omega
    simp only [if_neg hb, e5, e6, e7, deinterleave_left_apply, queue_addr]
    by_cases hj : j < k
    · rw [if_neg (by omega), if_pos hj]
      by_cases hjf : j < f
      · rw [if_neg (by omega), if_pos (by omega)]
        have hf0 : f ≠ 0 := by omega
        simp only [if_pos hf0, deinterleave_left_apply]
        rw [if_pos (by omega), if_pos (by omega)]
        rfl
      · rw [if_pos (by omega), if_neg (by omega)]
        congr 3
        omega
    · rw [if_neg hj]
      by_cases hn : j < nframes
      · rw [if_pos (by omega), if_pos hn]
      · rw [if_neg (by omega), if_neg (by omega), if_neg hn]
        by_cases hf0 : f = 0
        · simp only [hf0, ne_eq, not_true_eq_false, if_false]
        · simp only [ne_eq, hf0, not_false_eq_true, if_true, deinterleave_left_apply]
          rw [if_neg (by omega)]

theorem drain_right_apply (s : State) (hs : Inv s) (nframes : Nat) (L R : PortBuffer)
    (lat : jack_latency_range_t) (now : Int) (j : Nat) :
    (jack_stream_write_cb s nframes L R lat now).right_buffer j =
      if j < transferable s nframes then convert_sample (frame_at s.mem (queue_addr s j)).right
      else if j < nframes then 0 else R j := by
  obtain ⟨h1, h2, h3, h4, h5, h6, h7, h8, h9⟩ := hs
  rw [buffer_size_eq] at h1 h8 h9
  unfold jack_stream_write_cb transferable
  simp only []
  have hk : (if s.audio_occupancy < nframes then s.audio_occupancy else nframes)
      = min nframes s.audio_occupancy := by
    split <;> omega
  rw [hk]
  generalize hkk : min nframes s.audio_occupancy = k
  have hk1 : k ≤ s.audio_occupancy := by omega
  have hk2 : k ≤ nframes := by omega
  have e1 : to_size_t ((k : Int) * 2 * 2) = 4 * k := by unfold to_size_t; omega
  have e2 : to_size_t ((s.audio_umb : Int) - (s.audio_toq : Int)) = s.audio_umb - s.audio_toq := by
    unfold to_size_t; omega
  have e3 : to_size_t (((s.audio_umb : Int) - (s.audio_toq : Int)).tdiv (2 * 2))
      = (s.audio_umb - s.audio_toq) / 4 := by
    rw [Int.tdiv_eq_ediv (by omega) (by omega)]
    unfold to_size_t; omega
  have e4 : to_nframes k = k := by unfold to_nframes; omega
  simp only [e1, e2, e3, e4]
  rw [silence_loop_snd]
  by_cases hb : 4 * k ≤ s.audio_umb - s.audio_toq
  · simp only [if_pos hb, deinterleave_right_apply, queue_addr]
    by_cases hj : j < k
    · rw [if_neg (by omega), if_pos (by omega), if_pos hj, if_pos (by omega)]
      rfl
    · rw [if_neg hj]
      by_cases hn : j < nframes
      · rw [if_pos (by omega), if_pos hn]
      · rw [if_neg (by omega), if_neg (by omega), if_neg hn]
  · generalize hf : (s.audio_umb - s.audio_toq) / 4 = f at *
    have hf4 : 4 * f = s.audio_umb - s.audio_toq := by omega
    have e5 : to_size_t ((k : Int) - (f : Int)) = k - f := by unfold to_size_t; omega
    have e6 : to_nframes (k - f) = k - f := by unfold to_nframes; omega
    have e7 : to_nframes f = f := by unfold to_nframes; omega
    simp only [if_neg hb, e5, e6, e7, deinterleave_right_apply, queue_addr]
    by_cases hj : j < k
    · rw [if_neg (by omega), if_pos hj]
      by_cases hjf : j < f
      · rw [if_neg (by omega), if_pos (by omega)]
        have hf0 : f ≠ 0 := by omega
        simp only [if_pos hf0, deinterleave_right_apply]
        rw [if_pos (by omega), if_pos (by omega)]
        rfl
      · rw [if_pos (by omega), if_neg (by omega)]
        congr 3
        omega
    · rw [if_neg hj]
      by_cases hn : j < nframes
      · rw [if_pos (by omega), if_pos hn]
      · rw [if_neg (by omega), if_neg (by omega), if_neg hn]
        by_cases hf0 : f = 0
        · simp only [hf0, ne_eq, not_true_eq_false, if_false]
        · simp only [ne_eq, hf0, not_false_eq_true, if_true, deinterleave_right_apply]
          rw [if_neg (by omega)]

theorem drain_state_toq (s : State) (hs : Inv s) (nframes : Nat) (L R : PortBuffer)
    (lat : jack_latency_range_t) (now : Int) :
    (jack_stream_write_cb s nframes L R lat now).state.audio_toq =
      if 4 * transferable s nframes ≤ s.audio_umb - s.audio_toq then
        s.audio_toq + 4 * transferable s nframes
      else s.audio_lmb + (4 * transferable s nframes - (s.audio_umb - s.audio_toq)) := by
  obtain ⟨h1, h2, h3, h4, h5, h6, h7, h8, h9⟩ := hs
  rw [buffer_size_eq] at h1 h8 h9
  unfold jack_stream_write_cb transferable
  simp only []
  have hk : (if s.audio_occupancy < nframes then s.audio_occupancy else nframes)
      = min nframes s.audio_occupancy := by
    split <;> omega
  rw [hk]
  generalize hkk : min nframes s.audio_occupancy = k
  have hk1 : k ≤ s.audio_occupancy := by omega
  have e1 : to_size_t ((k : Int) * 2 * 2) = 4 * k := by unfold to_size_t; omega
  have e2 : to_size_t ((s.audio_umb : Int) - (s.audio_toq : Int)) = s.audio_umb - s.audio_toq := by
    unfold to_size_t; omega
  have e3 : to_size_t (((s.audio_umb : Int) - (s.audio_toq : Int)).tdiv (2 * 2))
      = (s.audio_umb - s.audio_toq) / 4 := by
    rw [Int.tdiv_eq_ediv (by omega) (by omega)]
    unfold to_size_t; omega
  simp only [e1, e2, e3]
  by_cases hb : 4 * k ≤ s.audio_umb - s.audio_toq
  · simp only [if_pos hb]
  · generalize hf : (s.audio_umb - s.audio_toq) / 4 = f at *
    have hf4 : 4 * f = s.audio_umb - s.audio_toq := by omega
    have e5 : to_size_t ((k : Int) - (f : Int)) = k - f := by unfold to_size_t; omega
    have e6 : to_size_t (((k - f : Nat) : Int) * 2 * 2) = 4 * (k - f) := by
      unfold to_size_t; omega
    simp only [if_neg hb, e5, e6]
    omega

theorem drain_state_occupancy (s : State) (hs : Inv s) (nframes : Nat) (L R : PortBuffer)
    (lat : jack_latency_range_t) (now : Int) :
    (jack_stream_write_cb s nframes L R lat now).state.audio_occupancy =
      s.audio_occupancy - transferable s nframes := by
  obtain ⟨h1, h2, h3, h4, h5, h6, h7, h8, h9⟩ := hs
  rw [buffer_size_eq] at h1 h8 h9
  unfold jack_stream_write_cb transferable
  simp only []
  have hk : (if s.audio_occupancy < nframes then s.audio_occupancy else nframes)
      = min nframes s.audio_occupancy := by
    split <;> omega
  rw [hk]
  unfold to_size_t
  omega

theorem drain_state_mem (s : State) (nframes : Nat) (L R : PortBuffer)
    (lat : jack_latency_range_t) (now : Int) :
    (jack_stream_write_cb s nframes L R lat now).state.mem = s.mem := rfl

theorem drain_state_eoq (s : State) (nframes : Nat) (L R : PortBuffer)
    (lat : jack_latency_range_t) (now : Int) :
    (jack_stream_write_cb s nframes L R lat now).state.audio_eoq = s.audio_eoq := rfl

theorem drain_state_lmb (s : State) (nframes : Nat) (L R : PortBuffer)
    (lat : jack_latency_range_t) (now : Int) :
    (jack_stream_write_cb s nframes L R lat now).state.audio_lmb = s.audio_lmb := rfl

theorem drain_state_umb (s : State) (nframes : Nat) (L R : PortBuffer)
    (lat : jack_latency_range_t) (now : Int) :
    (jack_stream_write_cb s nframes L R lat now).state.audio_umb = s.audio_umb := rfl

theorem drain_inv (s : State) (hs : Inv s) (nframes : Nat) (L R : PortBuffer)
    (lat : jack_latency_range_t) (now : Int) :
    Inv (jack_stream_write_cb s nframes L R lat now).state := by
  have ht := drain_state_toq s hs nframes L R lat now
  have ho := drain_state_occupancy s hs nframes L R lat now
  unfold Inv
  rw [ht, ho, drain_state_eoq, drain_state_lmb, drain_state_umb]
  obtain ⟨h1, h2, h3, h4, h5, h6, h7, h8, h9⟩ := hs
  unfold transferable
  rw [buffer_size_eq] at *
  split <;> omega

/-! ## `play` in natural-number arithmetic -/

theorem play_status (s : State) (buf : Nat → Byte) (samples : Int) :
    (play s buf samples).1 = 0 := by
  unfold play
  simp only []
  split <;> rfl

theorem play_state_toq (s : State) (buf : Nat → Byte) (samples : Int) :
    (play s buf samples).2.audio_toq = s.audio_toq := by
  unfold play
  simp only []
  split <;> rfl

theorem play_state_lmb (s : State) (buf : Nat → Byte) (samples : Int) :
    (play s buf samples).2.audio_lmb = s.audio_lmb := by
  unfold play
  simp only []
  split <;> rfl

theorem play_state_umb (s : State) (buf : Nat → Byte) (samples : Int) :
    (play s buf samples).2.audio_umb = s.audio_umb := by
  unfold play
  simp only []
  split <;> rfl

theorem play_state_occupancy (s : State) (buf : Nat → Byte) (n : Nat)
    (hcap : s.audio_occupancy + n ≤ buffer_size / 4) :
    (play s buf (n : Int)).2.audio_occupancy = s.audio_occupancy + n := by
  rw [buffer_size_eq] at hcap
  unfold play
  simp only []
  split <;> (simp only []; unfold to_size_t; omega)

theorem play_state_eoq (s : State) (buf : Nat → Byte) (n : Nat)
    (hu : s.audio_umb = s.audio_lmb + buffer_size)
    (hle : s.audio_eoq ≤ s.audio_umb) (hge : s.audio_lmb ≤ s.audio_eoq)
    (hcap : s.audio_occupancy + n ≤ buffer_size / 4) :
    (play s buf (n : Int)).2.audio_eoq =
      if 4 * n ≤ s.audio_umb - s.audio_eoq then s.audio_eoq + 4 * n
      else s.audio_lmb + (4 * n - (s.audio_umb - s.audio_eoq)) := by
  rw [buffer_size_eq] at hcap hu
  have e1 : to_size_t ((n : Int) * 2 * 2) = 4 * n := by unfold to_size_t; omega
  have e2 : to_size_t ((s.audio_umb : Int) - (s.audio_eoq : Int)) = s.audio_umb - s.audio_eoq := by
    unfold to_size_t; omega
  unfold play
  simp only [e1, e2, ge_iff_le]
  by_cases hb : 4 * n ≤ s.audio_umb - s.audio_eoq
  · rw [if_pos hb, if_pos hb]
  · rw [if_neg hb, if_neg hb]
    simp only []
    omega

theorem play_state_mem (s : State) (buf : Nat → Byte) (n : Nat)
    (hu : s.audio_umb = s.audio_lmb + buffer_size)
    (hle : s.audio_eoq ≤ s.audio_umb) (hge : s.audio_lmb ≤ s.audio_eoq)
    (hcap : s.audio_occupancy + n ≤ buffer_size / 4) (a : Nat) :
    (play s buf (n : Int)).2.mem a =
      if 4 * n ≤ s.audio_umb - s.audio_eoq then
        (if s.audio_eoq ≤ a ∧ a < s.audio_eoq + 4 * n then buf (a - s.audio_eoq) else s.mem a)
      else
        (if s.audio_lmb ≤ a ∧ a < s.audio_lmb + (4 * n - (s.audio_umb - s.audio_eoq)) then
           buf (s.audio_umb - s.audio_eoq + (a - s.audio_lmb))
         else if s.audio_eoq ≤ a ∧ a < s.audio_umb then buf (a - s.audio_eoq)
         else s.mem a) := by
  rw [buffer_size_eq] at hcap hu
  have e1 : to_size_t ((n : Int) * 2 * 2) = 4 * n := by unfold to_size_t; omega
  have e2 : to_size_t ((s.audio_umb : Int) - (s.audio_eoq : Int)) = s.audio_umb - s.audio_eoq := by
    unfold to_size_t; omega
  unfold play
  simp only [e1, e2, ge_iff_le]
  by_cases hb : 4 * n ≤ s.audio_umb - s.audio_eoq
  · rw [if_pos hb, if_pos hb]
    rfl
  · rw [if_neg hb, if_neg hb]
    simp only [memcpy, advance]
    have e3 : s.audio_eoq + (s.audio_umb - s.audio_eoq) = s.audio_umb := by omega
    rw [e3]

theorem play_inv (s : State) (hs : Inv s) (buf : Nat → Byte) (n : Nat)
    (hcap : s.audio_occupancy + n ≤ buffer_size / 4) :
    Inv (play s buf (n : Int)).2 := by
  obtain ⟨h1, h2, h3, h4, h5, h6, h7, h8, h9⟩ := hs
  have he := play_state_eoq s buf n h1 h5 h4 hcap
  have ho := play_state_occupancy s buf n hcap
  unfold Inv
  rw [he, ho, play_state_toq, play_state_lmb, play_state_umb]
  rw [buffer_size_eq] at *
  split <;> omega

/-! ## The buffered frames across `play` and the drain callback -/

theorem contents_length (s : State) : (contents s).length = s.audio_occupancy := by
  simp [contents]

theorem frames_length (buf : Nat → Byte) (n : Nat) : (frames buf n).length = n := by
  simp [frames]

theorem queue_addr_play (s : State) (buf : Nat → Byte) (samples : Int) (i : Nat) :
    queue_addr (play s buf samples).2 i = queue_addr s i := by
  unfold queue_addr
  rw [play_state_toq, play_state_umb, play_state_lmb]

theorem play_keeps_byte (s : State) (hs : Inv s) (buf : Nat → Byte) (n : Nat)
    (hcap : s.audio_occupancy + n ≤ buffer_size / 4) (i d : Nat)
    (hi : i < s.audio_occupancy) (hd : d < 4) :
    (play s buf (n : Int)).2.mem (queue_addr s i + d) = s.mem (queue_addr s i + d) := by
  obtain ⟨h1, h2, h3, h4, h5, h6, h7, h8, h9⟩ := hs
  rw [play_state_mem s buf n h1 h5 h4 hcap]
  rw [buffer_size_eq] at *
  unfold queue_addr
  split_ifs <;> first | rfl | (exfalso; omega)

theorem play_writes_byte (s : State) (hs : Inv s) (buf : Nat → Byte) (n : Nat)
    (hcap : s.audio_occupancy + n ≤ buffer_size / 4) (j d : Nat)
    (hj : j < n) (hd : d < 4) :
    (play s buf (n : Int)).2.mem (queue_addr s (s.audio_occupancy + j) + d) = buf (4 * j + d) := by
  obtain ⟨h1, h2, h3, h4, h5, h6, h7, h8, h9⟩ := hs
  rw [play_state_mem s buf n h1 h5 h4 hcap]
  rw [buffer_size_eq] at *
  unfold queue_addr
  split_ifs <;> first | (exfalso; omega) | (congr 1; omega)

theorem play_contents (s : State) (hs : Inv s) (buf : Nat → Byte) (n : Nat)
    (hcap : s.audio_occupancy + n ≤ buffer_size / 4) :
    contents (play s buf (n : Int)).2 = contents s ++ frames buf n := by
  unfold contents frames
  rw [play_state_occupancy s buf n hcap, List.range_add, List.map_append, List.map_map]
  congr 1
  · apply List.map_congr_left
    intro i hi
    rw [List.mem_range] at hi
    rw [queue_addr_play]
    have hb := fun d hd => play_keeps_byte s hs buf n hcap i d hi hd
    unfold frame_at
    rw [hb 1 (by omega), hb 2 (by omega), hb 3 (by omega)]
    have h0 := hb 0 (by omega)
    rw [Nat.add_zero] at h0
    rw [h0]
  · apply List.map_congr_left
    intro j hj
    rw [List.mem_range] at hj
    simp only [Function.comp]
    rw [queue_addr_play]
    have hb := fun d hd => play_writes_byte s hs buf n hcap j d hj hd
    unfold frame_at
    rw [hb 1 (by omega), hb 2 (by omega), hb 3 (by omega)]
    have h0 := hb 0 (by omega)
    rw [Nat.add_zero] at h0
    rw [h0]
    rfl

theorem queue_addr_drain (s : State) (hs : Inv s) (nframes : Nat) (L R : PortBuffer)
    (lat : jack_latency_range_t) (now : Int) (i : Nat)
    (hi : i < s.audio_occupancy - transferable s nframes) :
    queue_addr (jack_stream_write_cb s nframes L R lat now).state i =
      queue_addr s (transferable s nframes + i) := by
  unfold queue_addr
  rw [drain_state_toq s hs, drain_state_lmb, drain_state_umb]
  obtain ⟨h1, h2, h3, h4, h5, h6, h7, h8, h9⟩ := hs
  rw [buffer_size_eq] at *
  generalize transferable s nframes = k at *
  split_ifs <;> omega

theorem drain_contents (s : State) (hs : Inv s) (nframes : Nat) (L R : PortBuffer)
    (lat : jack_latency_range_t) (now : Int) :
    contents (jack_stream_write_cb s nframes L R lat now).state =
      (contents s).drop (transferable s nframes) := by
  have hk : transferable s nframes ≤ s.audio_occupancy := by
    unfold transferable
    omega
  unfold contents
  rw [drain_state_occupancy s hs, drain_state_mem, ← List.map_drop]
  have hr : List.drop (transferable s nframes) (List.range s.audio_occupancy) =
      (List.range (s.audio_occupancy - transferable s nframes)).map
        (fun i => transferable s nframes + i) := by
    have hsplit : s.audio_occupancy =
        transferable s nframes + (s.audio_occupancy - transferable s nframes) := by omega
    conv_lhs => rw [hsplit, List.range_add]
    rw [List.drop_left' (by simp)]
  rw [hr, List.map_map]
  apply List.map_congr_left
  intro i hi
  rw [List.mem_range] at hi
  simp only [Function.comp]
  rw [queue_addr_drain s hs nframes L R lat now i hi]

theorem contents_drop_nframes (s : State) (nframes : Nat) :
    (contents s).drop nframes = (contents s).drop (transferable s nframes) := by
  unfold transferable
  by_cases h : nframes ≤ s.audio_occupancy
  · rw [Nat.min_eq_left h]
  · rw [Nat.min_eq_right (by omega), List.drop_of_length_le (by rw [contents_length]; omega),
      List.drop_of_length_le (by rw [contents_length])]

/-! ## Reachable states -/

theorem init_inv (s0 : State) (malloc_result : Nat) (r : Int) (s : State)
    (h : init s0 malloc_result = some (r, s)) : Inv s ∧ contents s = [] := by
  unfold init at h
  split at h
  · exact absurd h (by simp)
  · simp only [Option.some.injEq, Prod.mk.injEq] at h
    obtain ⟨_, rfl⟩ := h
    refine ⟨?_, ?_⟩
    · unfold Inv
      simp
    · simp [contents]

theorem flush_inv (s : State) : Inv (jack_flush s) ∧ contents (jack_flush s) = [] := by
  refine ⟨?_, ?_⟩
  · unfold Inv jack_flush
    simp
  · simp [contents, jack_flush]

theorem reachable_inv (s : State) (q : List Frame) (h : Reachable s q) :
    Inv s ∧ contents s = q := by
  induction h with
  | init s0 p r s h => exact init_inv s0 p r s h
  | play s q buf samples hs h0 hcap ih =>
      lift samples to ℕ using h0 with n
      have hcap' : s.audio_occupancy + n ≤ buffer_size / 4 := by exact_mod_cast hcap
      refine ⟨play_inv s ih.1 buf n hcap', ?_⟩
      rw [play_contents s ih.1 buf n hcap', ih.2, Int.toNat_natCast]
  | drain s q nframes L R lat now hs ih =>
      refine ⟨drain_inv s ih.1 nframes L R lat now, ?_⟩
      rw [drain_contents s ih.1, ← contents_drop_nframes, ih.2]
  | flush s q hs ih => exact flush_inv s

theorem contents_get (s : State) (i : Nat) (hi : i < s.audio_occupancy) :
    (contents s)[i]? = some (frame_at s.mem (queue_addr s i)) := by
  unfold contents
  rw [List.getElem?_map, List.getElem?_range hi]
  rfl

theorem play_frame_new (s : State) (hs : Inv s) (buf : Nat → Byte) (n : Nat)
    (hcap : s.audio_occupancy + n ≤ buffer_size / 4) (j : Nat) (hj : j < n) :
    frame_at (play s buf (n : Int)).2.mem
        (queue_addr (play s buf (n : Int)).2 (s.audio_occupancy + j)) =
      frame_at buf (4 * j) := by
  rw [queue_addr_play]
  have hb := fun d hd => play_writes_byte s hs buf n hcap j d hj hd
  unfold frame_at
  rw [hb 1 (by omega), hb 2 (by omega), hb 3 (by omega)]
  have h0 := hb 0 (by omega)
  rw [Nat.add_zero] at h0
  rw [h0]
  rfl

/-- C1: in every state reachable from `init` by `play`, drain and flush calls that keep
the occupancy within the capacity, with `q` the frames buffered in arrival order, the
drain callback `jack_stream_write_cb` called for `nframes` frames returns status 0 and
writes exactly the positions below `nframes` of both port buffers: with
`k = min nframes audio_occupancy`, position `i < k` holds the converted left and
right samples of the `i`-th oldest buffered frame, positions `k ≤ i < nframes` hold
zero, positions from `nframes` on keep what they held, and the occupancy afterwards
is `audio_occupancy - k`. -/
theorem drain_fills_outputs (s : State) (q : List Frame) (hs : Reachable s q) (nframes : Nat)
    (L R : PortBuffer) (lat : jack_latency_range_t) (now : Int) :
    q.length = s.audio_occupancy ∧
    (∀ i, i < min nframes s.audio_occupancy →
      ∃ f, q[i]? = some f ∧
        (jack_stream_write_cb s nframes L R lat now).left_buffer i = convert_sample f.left ∧
        (jack_stream_write_cb s nframes L R lat now).right_buffer i = convert_sample f.right) ∧
    (∀ i, min nframes s.audio_occupancy ≤ i → i < nframes →
        (jack_stream_write_cb s nframes L R lat now).left_buffer i = 0 ∧
        (jack_stream_write_cb s nframes L R lat now).right_buffer i = 0) ∧
    (∀ i, nframes ≤ i →
        (jack_stream_write_cb s nframes L R lat now).left_buffer i = L i ∧
        (jack_stream_write_cb s nframes L R lat now).right_buffer i = R i) ∧
    (jack_stream_write_cb s nframes L R lat now).state.audio_occupancy =
      s.audio_occupancy - min nframes s.audio_occupancy ∧
    (jack_stream_write_cb s nframes L R lat now).status = 0 := by
  obtain ⟨hinv, hq⟩ := reachable_inv s q hs
  have hl := drain_left_apply s hinv nframes L R lat now
  have hr := drain_right_apply s hinv nframes L R lat now
  unfold transferable at hl hr
  refine ⟨?_, ?_, ?_, ?_, ?_, rfl⟩
  · rw [← hq, contents_length]
  · intro i hi
    refine ⟨frame_at s.mem (queue_addr s i), ?_, ?_, ?_⟩
    · rw [← hq]
      exact contents_get s i (by omega)
    · rw [hl, if_pos hi]
    · rw [hr, if_pos hi]
  · intro i hi hn
    exact ⟨by rw [hl, if_neg (by omega), if_pos hn],
      by rw [hr, if_neg (by omega), if_pos hn]⟩
  · intro i hi
    exact ⟨by rw [hl, if_neg (by omega), if_neg (by omega)],
      by rw [hr, if_neg (by omega), if_neg (by omega)]⟩
  · exact drain_state_occupancy s hinv nframes L R lat now

/-- C1, witness: after `init` and a `play` of 50 frames, a drain of 200 frames. -/
theorem drain_fills_outputs_witness :
    Reachable fifty_state (frames ramp 50) ∧
    ((frames ramp 50).length = fifty_state.audio_occupancy ∧
    (∀ i, i < min 200 fifty_state.audio_occupancy →
      ∃ f, (frames ramp 50)[i]? = some f ∧
        (jack_stream_write_cb fifty_state 200 sevens sevens { min := 0, max := 0 } 0).left_buffer i
          = convert_sample f.left ∧
        (jack_stream_write_cb fifty_state 200 sevens sevens { min := 0, max := 0 } 0).right_buffer i
          = convert_sample f.right) ∧
    (∀ i, min 200 fifty_state.audio_occupancy ≤ i → i < 200 →
        (jack_stream_write_cb fifty_state 200 sevens sevens { min := 0, max := 0 } 0).left_buffer i
          = 0 ∧
        (jack_stream_write_cb fifty_state 200 sevens sevens { min := 0, max := 0 } 0).right_buffer i
          = 0) ∧
    (∀ i, 200 ≤ i →
        (jack_stream_write_cb fifty_state 200 sevens sevens { min := 0, max := 0 } 0).left_buffer i
          = sevens i ∧
        (jack_stream_write_cb fifty_state 200 sevens sevens { min := 0, max := 0 } 0).right_buffer i
          = sevens i) ∧
    (jack_stream_write_cb fifty_state 200 sevens sevens { min := 0, max := 0 } 0).state.audio_occupancy
      = fifty_state.audio_occupancy - min 200 fifty_state.audio_occupancy ∧
    (jack_stream_write_cb fifty_state 200 sevens sevens { min := 0, max := 0 } 0).status = 0) :=
  have hr : Reachable fifty_state (frames ramp 50) :=
    Reachable.play fresh_state [] ramp 50 (Reachable.init boot_state 4096 0 fresh_state rfl)
      (by decide) (by decide)
  ⟨hr, drain_fills_outputs fifty_state (frames ramp 50) hr 200 sevens sevens { min := 0, max := 0 } 0⟩

theorem empty_at_inv (s : State) (p : Nat) (hu : s.audio_umb = s.audio_lmb + buffer_size)
    (hp : p ≤ buffer_size) (hal : p % 4 = 0) : Inv (empty_at s p) := by
  unfold Inv empty_at
  simp only []
  rw [buffer_size_eq] at *
  omega

theorem play_drain_left (s : State) (hs : Inv s) (ho : s.audio_occupancy = 0)
    (buf : Nat → Byte) (n m : Nat) (hn : 4 * n ≤ buffer_size) (hm : m ≤ n)
    (L R : PortBuffer) (lat : jack_latency_range_t) (now : Int) (j : Nat) :
    (jack_stream_write_cb (play s buf (n : Int)).2 m L R lat now).left_buffer j =
      if j < m then convert_sample (frame_at buf (4 * j)).left else L j := by
  have hcap : s.audio_occupancy + n ≤ buffer_size / 4 := by
    rw [buffer_size_eq] at *
    omega
  have hocc := play_state_occupancy s buf n hcap
  rw [drain_left_apply _ (play_inv s hs buf n hcap)]
  unfold transferable
  rw [hocc, ho, Nat.zero_add, Nat.min_eq_left hm]
  by_cases hj : j < m
  · rw [if_pos hj, if_pos hj]
    have hf := play_frame_new s hs buf n hcap j (by omega)
    rw [ho, Nat.zero_add] at hf
    rw [hf]
  · rw [if_neg hj, if_neg hj, if_neg hj]

theorem play_drain_right (s : State) (hs : Inv s) (ho : s.audio_occupancy = 0)
    (buf : Nat → Byte) (n m : Nat) (hn : 4 * n ≤ buffer_size) (hm : m ≤ n)
    (L R : PortBuffer) (lat : jack_latency_range_t) (now : Int) (j : Nat) :
    (jack_stream_write_cb (play s buf (n : Int)).2 m L R lat now).right_buffer j =
      if j < m then convert_sample (frame_at buf (4 * j)).right else R j := by
  have hcap : s.audio_occupancy + n ≤ buffer_size / 4 := by
    rw [buffer_size_eq] at *
    omega
  have hocc := play_state_occupancy s buf n hcap
  rw [drain_right_apply _ (play_inv s hs buf n hcap)]
  unfold transferable
  rw [hocc, ho, Nat.zero_add, Nat.min_eq_left hm]
  by_cases hj : j < m
  · rw [if_pos hj, if_pos hj]
    have hf := play_frame_new s hs buf n hcap j (by omega)
    rw [ho, Nat.zero_add] at hf
    rw [hf]
  · rw [if_neg hj, if_neg hj, if_neg hj]

/-- C2: wraparound correctness. For every buffer of `buffer_size` bytes, every cursor
offset `p` in it that is a multiple of four and every run of `n` frames with
`4 * n ≤ buffer_size`, starting from the empty store with head = tail = `p`, `play` of
the run followed by a drain of `n` frames leaves in the left and in the right port
buffer exactly what the same `play` and drain leave when started at the lower bound
(offset 0), whether or not `p + 4 * n` passes the upper bound; in both, position
`i < n` holds the converted sample of frame `i` of the run. -/
theorem wraparound_same_outputs (s : State) (p n : Nat) (buf : Nat → Byte)
    (L R : PortBuffer) (lat : jack_latency_range_t) (now : Int)
    (hu : s.audio_umb = s.audio_lmb + buffer_size) (hp : p ≤ buffer_size) (hal : p % 4 = 0)
    (hn : 4 * n ≤ buffer_size) :
    (jack_stream_write_cb (play (empty_at s p) buf (n : Int)).2 n L R lat now).left_buffer =
      (jack_stream_write_cb (play (empty_at s 0) buf (n : Int)).2 n L R lat now).left_buffer ∧
    (jack_stream_write_cb (play (empty_at s p) buf (n : Int)).2 n L R lat now).right_buffer =
      (jack_stream_write_cb (play (empty_at s 0) buf (n : Int)).2 n L R lat now).right_buffer ∧
    (∀ i, i < n →
      (jack_stream_write_cb (play (empty_at s p) buf (n : Int)).2 n L R lat now).left_buffer i =
        convert_sample (frame_at buf (4 * i)).left ∧
      (jack_stream_write_cb (play (empty_at s p) buf (n : Int)).2 n L R lat now).right_buffer i =
        convert_sample (frame_at buf (4 * i)).right) := by
  have hip := empty_at_inv s p hu hp hal
  have hi0 := empty_at_inv s 0 hu (Nat.zero_le _) rfl
  have hl := play_drain_left (empty_at s p) hip rfl buf n n hn (Nat.le_refl n) L R lat now
  have hr := play_drain_right (empty_at s p) hip rfl buf n n hn (Nat.le_refl n) L R lat now
  refine ⟨?_, ?_, ?_⟩
  · funext j
    rw [hl, play_drain_left (empty_at s 0) hi0 rfl buf n n hn (Nat.le_refl n) L R lat now]
  · funext j
    rw [hr, play_drain_right (empty_at s 0) hi0 rfl buf n n hn (Nat.le_refl n) L R lat now]
  · intro i hi
    exact ⟨by rw [hl, if_pos hi], by rw [hr, if_pos hi]⟩

/-- C2, witness: a run of 100 frames pushed 200 bytes before the upper bound. -/
theorem wraparound_same_outputs_witness :
    (fresh_state.audio_umb = fresh_state.audio_lmb + buffer_size ∧ 705400 ≤ buffer_size ∧
      705400 % 4 = 0 ∧ 4 * 100 ≤ buffer_size) ∧
    ((jack_stream_write_cb (play (empty_at fresh_state 705400) ramp ((100 : Nat) : Int)).2 100
        sevens sevens { min := 0, max := 0 } 0).left_buffer =
      (jack_stream_write_cb (play (empty_at fresh_state 0) ramp ((100 : Nat) : Int)).2 100
        sevens sevens { min := 0, max := 0 } 0).left_buffer ∧
    (jack_stream_write_cb (play (empty_at fresh_state 705400) ramp ((100 : Nat) : Int)).2 100
        sevens sevens { min := 0, max := 0 } 0).right_buffer =
      (jack_stream_write_cb (play (empty_at fresh_state 0) ramp ((100 : Nat) : Int)).2 100
        sevens sevens { min := 0, max := 0 } 0).right_buffer ∧
    (∀ i, i < 100 →
      (jack_stream_write_cb (play (empty_at fresh_state 705400) ramp ((100 : Nat) : Int)).2 100
        sevens sevens { min := 0, max := 0 } 0).left_buffer i =
        convert_sample (frame_at ramp (4 * i)).left ∧
      (jack_stream_write_cb (play (empty_at fresh_state 705400) ramp ((100 : Nat) : Int)).2 100
        sevens sevens { min := 0, max := 0 } 0).right_buffer i =
        convert_sample (frame_at ramp (4 * i)).right)) :=
  ⟨⟨rfl, by decide, by decide, by decide⟩,
   wraparound_same_outputs fresh_state 705400 100 ramp sevens sevens { min := 0, max := 0 } 0
     rfl (by decide) (by decide) (by decide)⟩

/-- C3: `play` refines appending to a FIFO queue. With `contents s` the
`audio_occupancy` frames read from the head cursor forward, wrapping at the upper
bound, for every reachable state and every input of `samples ≥ 0` frames with
`audio_occupancy + samples ≤ buffer_size / 4`, the contents after `play` are the
contents before followed by the frames of the input; so every frame buffered before
the call is still there, unchanged, at the same position of the queue. -/
theorem play_appends_frames (s : State) (q : List Frame) (hs : Reachable s q)
    (buf : Nat → Byte) (samples : Int) (h0 : 0 ≤ samples)
    (hcap : (s.audio_occupancy : Int) + samples ≤ ((buffer_size / 4 : Nat) : Int)) :
    contents s = q ∧
    contents (play s buf samples).2 = contents s ++ frames buf samples.toNat ∧
    (frames buf samples.toNat).length = samples.toNat ∧
    (∀ i, i < s.audio_occupancy →
      (contents (play s buf samples).2)[i]? = (contents s)[i]?) := by
  obtain ⟨hinv, hq⟩ := reachable_inv s q hs
  lift samples to ℕ using h0 with n
  have hcap' : s.audio_occupancy + n ≤ buffer_size / 4 := by exact_mod_cast hcap
  have happ := play_contents s hinv buf n hcap'
  rw [Int.toNat_natCast]
  refine ⟨hq, happ, frames_length buf n, ?_⟩
  intro i hi
  rw [happ, List.getElem?_append_left (by rw [contents_length]; exact hi)]

/-- C3, witness: 30 more frames pushed onto the 50 buffered ones. -/
theorem play_appends_frames_witness :
    (Reachable fifty_state (frames ramp 50) ∧ (0 : Int) ≤ 30 ∧
      (fifty_state.audio_occupancy : Int) + 30 ≤ ((buffer_size / 4 : Nat) : Int)) ∧
    (contents fifty_state = frames ramp 50 ∧
    contents (play fifty_state sevens_bytes 30).2 =
      contents fifty_state ++ frames sevens_bytes (30 : Int).toNat ∧
    (frames sevens_bytes (30 : Int).toNat).length = (30 : Int).toNat ∧
    (∀ i, i < fifty_state.audio_occupancy →
      (contents (play fifty_state sevens_bytes 30).2)[i]? = (contents fifty_state)[i]?)) :=
  have hr : Reachable fifty_state (frames ramp 50) :=
    Reachable.play fresh_state [] ramp 50 (Reachable.init boot_state 4096 0 fresh_state rfl)
      (by decide) (by decide)
  ⟨⟨hr, by decide, by decide⟩,
   play_appends_frames fifty_state (frames ramp 50) hr sevens_bytes 30 (by decide) (by decide)⟩

/-- C4: capacity invariant. In every state reached from `init` by `play`,
`jack_stream_write_cb` and `jack_flush` calls, each `play` of `n` frames being made with
`audio_occupancy + n ≤ buffer_size / 4`, the occupancy in bytes is at most
`buffer_size = 44100 * 4 * 2 * 2`. -/
theorem capacity_invariant (s : State) (q : List Frame) (hs : Reachable s q) :
    s.audio_occupancy * 4 ≤ buffer_size ∧ buffer_size = 44100 * 4 * 2 * 2 := by
  obtain ⟨hinv, _⟩ := reachable_inv s q hs
  exact ⟨hinv.2.2.2.2.2.2.2.1, rfl⟩

/-- C4, witness: the state after `init` and a `play` that fills the buffer. -/
theorem capacity_invariant_witness :
    Reachable full_state ([] ++ frames ramp (176400 : Int).toNat) ∧
    (full_state.audio_occupancy * 4 ≤ buffer_size ∧ buffer_size = 44100 * 4 * 2 * 2) :=
  have hr : Reachable full_state ([] ++ frames ramp (176400 : Int).toNat) :=
    Reachable.play fresh_state [] ramp 176400
      (Reachable.init boot_state 4096 0 fresh_state rfl) (by decide) (by decide)
  ⟨hr, capacity_invariant full_state ([] ++ frames ramp (176400 : Int).toNat) hr⟩

/-- C5, counterexample: after `init` and one `play` of 176400 frames (which fills the
buffer exactly) the tail cursor `audio_eoq` equals the upper bound `audio_umb`, so the
cursors of this reachable state are not both in the half-open range. -/
theorem cursor_half_open_counterexample :
    Reachable full_state ([] ++ frames ramp (176400 : Int).toNat) ∧
    full_state.audio_eoq = full_state.audio_umb ∧
    ¬ (full_state.audio_lmb ≤ full_state.audio_toq ∧ full_state.audio_toq < full_state.audio_umb ∧
       full_state.audio_lmb ≤ full_state.audio_eoq ∧ full_state.audio_eoq < full_state.audio_umb) := by
  refine ⟨Reachable.play fresh_state [] ramp 176400
      (Reachable.init boot_state 4096 0 fresh_state rfl) (by decide) (by decide), ?_, ?_⟩
  · decide
  · decide

/-- C5, amended: in every state reached from `init` by `play`, drain and flush calls that
keep the occupancy within the capacity, both cursors `audio_toq` and `audio_eoq` lie in
the closed range from the lower bound `audio_lmb` to the upper bound `audio_umb`. -/
theorem cursor_closed_range (s : State) (q : List Frame) (hs : Reachable s q) :
    s.audio_lmb ≤ s.audio_toq ∧ s.audio_toq ≤ s.audio_umb ∧
    s.audio_lmb ≤ s.audio_eoq ∧ s.audio_eoq ≤ s.audio_umb := by
  obtain ⟨⟨_, h2, h3, h4, h5, _⟩, _⟩ := reachable_inv s q hs
  exact ⟨h2, h3, h4, h5⟩

/-- C5, witness of the amended statement: the state after `init`, `play` and `jack_flush`. -/
theorem cursor_closed_range_witness :
    Reachable (jack_flush fifty_state) [] ∧
    ((jack_flush fifty_state).audio_lmb ≤ (jack_flush fifty_state).audio_toq ∧
     (jack_flush fifty_state).audio_toq ≤ (jack_flush fifty_state).audio_umb ∧
     (jack_flush fifty_state).audio_lmb ≤ (jack_flush fifty_state).audio_eoq ∧
     (jack_flush fifty_state).audio_eoq ≤ (jack_flush fifty_state).audio_umb) :=
  have hr : Reachable (jack_flush fifty_state) [] :=
    Reachable.flush fifty_state (frames ramp 50)
      (Reachable.play fresh_state [] ramp 50 (Reachable.init boot_state 4096 0 fresh_state rfl)
        (by decide) (by decide))
  ⟨hr, cursor_closed_range (jack_flush fifty_state) [] hr⟩

/-- C6: end-to-end scenario. Starting from an empty store as `init` or `jack_flush`
leave it (head = tail = lower bound, occupancy 0, buffer of `buffer_size` bytes), for
every `n` with `4 * n ≤ buffer_size` and every `m ≤ n`, `play` of `n` frames followed by
a drain of `m` frames writes to positions `i < m` of the port buffers the converted
samples of frame `i` of the input, writes no other position, leaves the occupancy at
`n - m` and leaves the head cursor exactly `4 * m` bytes past the lower bound. -/
theorem play_then_drain (s : State) (buf : Nat → Byte) (n m : Nat)
    (L R : PortBuffer) (lat : jack_latency_range_t) (now : Int)
    (hu : s.audio_umb = s.audio_lmb + buffer_size)
    (hh : s.audio_toq = s.audio_lmb) (ht : s.audio_eoq = s.audio_lmb)
    (ho : s.audio_occupancy = 0) (hn : 4 * n ≤ buffer_size) (hm : m ≤ n) :
    (∀ i, i < m →
      (jack_stream_write_cb (play s buf (n : Int)).2 m L R lat now).left_buffer i =
        convert_sample (frame_at buf (4 * i)).left ∧
      (jack_stream_write_cb (play s buf (n : Int)).2 m L R lat now).right_buffer i =
        convert_sample (frame_at buf (4 * i)).right) ∧
    (∀ i, m ≤ i →
      (jack_stream_write_cb (play s buf (n : Int)).2 m L R lat now).left_buffer i = L i ∧
      (jack_stream_write_cb (play s buf (n : Int)).2 m L R lat now).right_buffer i = R i) ∧
    (jack_stream_write_cb (play s buf (n : Int)).2 m L R lat now).state.audio_occupancy = n - m ∧
    (jack_stream_write_cb (play s buf (n : Int)).2 m L R lat now).state.audio_toq =
      s.audio_lmb + 4 * m := by
  have hinv : Inv s := by
    unfold Inv
    rw [hu, hh, ht, ho, buffer_size_eq]
    omega
  have hcap : s.audio_occupancy + n ≤ buffer_size / 4 := by
    rw [buffer_size_eq] at *
    omega
  have hinv' := play_inv s hinv buf n hcap
  have hocc := play_state_occupancy s buf n hcap
  have hl := play_drain_left s hinv ho buf n m hn hm L R lat now
  have hr := play_drain_right s hinv ho buf n m hn hm L R lat now
  refine ⟨?_, ?_, ?_, ?_⟩
  · intro i hi
    exact ⟨by rw [hl, if_pos hi], by rw [hr, if_pos hi]⟩
  · intro i hi
    exact ⟨by rw [hl, if_neg (by omega)], by rw [hr, if_neg (by omega)]⟩
  · rw [drain_state_occupancy _ hinv']
    unfold transferable
    rw [hocc, ho]
    omega
  · rw [drain_state_toq _ hinv']
    unfold transferable
    rw [hocc, ho, play_state_toq, play_state_umb, play_state_lmb, hu, hh]
    rw [buffer_size_eq] at *
    split <;> omega

/-- C6, witness: `play` of 100 frames, then a drain of 60 frames. -/
theorem play_then_drain_witness :
    (fresh_state.audio_umb = fresh_state.audio_lmb + buffer_size ∧
      fresh_state.audio_toq = fresh_state.audio_lmb ∧
      fresh_state.audio_eoq = fresh_state.audio_lmb ∧
      fresh_state.audio_occupancy = 0 ∧ 4 * 100 ≤ buffer_size ∧ 60 ≤ 100) ∧
    ((∀ i, i < 60 →
      (jack_stream_write_cb (play fresh_state ramp ((100 : Nat) : Int)).2 60 sevens sevens
        { min := 0, max := 0 } 0).left_buffer i = convert_sample (frame_at ramp (4 * i)).left ∧
      (jack_stream_write_cb (play fresh_state ramp ((100 : Nat) : Int)).2 60 sevens sevens
        { min := 0, max := 0 } 0).right_buffer i = convert_sample (frame_at ramp (4 * i)).right) ∧
    (∀ i, 60 ≤ i →
      (jack_stream_write_cb (play fresh_state ramp ((100 : Nat) : Int)).2 60 sevens sevens
        { min := 0, max := 0 } 0).left_buffer i = sevens i ∧
      (jack_stream_write_cb (play fresh_state ramp ((100 : Nat) : Int)).2 60 sevens sevens
        { min := 0, max := 0 } 0).right_buffer i = sevens i) ∧
    (jack_stream_write_cb (play fresh_state ramp ((100 : Nat) : Int)).2 60 sevens sevens
        { min := 0, max := 0 } 0).state.audio_occupancy = 100 - 60 ∧
    (jack_stream_write_cb (play fresh_state ramp ((100 : Nat) : Int)).2 60 sevens sevens
        { min := 0, max := 0 } 0).state.audio_toq = fresh_state.audio_lmb + 4 * 60) :=
  ⟨⟨rfl, rfl, rfl, rfl, by decide, by decide⟩,
   play_then_drain fresh_state ramp 100 60 sevens sevens { min := 0, max := 0 } 0
     rfl rfl rfl rfl (by decide) (by decide)⟩

/-- C7: `play` postcondition. For every state whose buffer is `buffer_size` bytes long
with the tail cursor inside it, and every `samples ≥ 0` with
`audio_occupancy + samples ≤ buffer_size / 4`, `play` returns 0, the occupancy afterwards
is `audio_occupancy + samples`, the tail afterwards is again inside the buffer at an
offset congruent to the old offset plus `4 * samples` modulo `buffer_size`, and the
head cursor is unchanged. -/
theorem play_postcondition (s : State) (buf : Nat → Byte) (samples : Int)
    (hu : s.audio_umb = s.audio_lmb + buffer_size)
    (hge : s.audio_lmb ≤ s.audio_eoq) (hle : s.audio_eoq ≤ s.audio_umb)
    (h0 : 0 ≤ samples)
    (hcap : (s.audio_occupancy : Int) + samples ≤ ((buffer_size / 4 : Nat) : Int)) :
    (play s buf samples).1 = 0 ∧
    ((play s buf samples).2.audio_occupancy : Int) = (s.audio_occupancy : Int) + samples ∧
    s.audio_lmb ≤ (play s buf samples).2.audio_eoq ∧
    (play s buf samples).2.audio_eoq ≤ s.audio_umb ∧
    ((play s buf samples).2.audio_eoq - s.audio_lmb) % buffer_size =
      (s.audio_eoq - s.audio_lmb + 4 * samples.toNat) % buffer_size ∧
    (play s buf samples).2.audio_toq = s.audio_toq := by
  lift samples to ℕ using h0 with n
  have hcap' : s.audio_occupancy + n ≤ buffer_size / 4 := by exact_mod_cast hcap
  have he := play_state_eoq s buf n hu hle hge hcap'
  have hocc := play_state_occupancy s buf n hcap'
  rw [Int.toNat_natCast, he, hocc]
  refine ⟨play_status s buf n, by push_cast; rfl, ?_, ?_, ?_, play_state_toq s buf n⟩ <;>
    (rw [buffer_size_eq] at *; split <;> omega)

/-- C7, witness: 176350 frames pushed onto the 50 buffered ones, up to the capacity. -/
theorem play_postcondition_witness :
    (fifty_state.audio_umb = fifty_state.audio_lmb + buffer_size ∧
      fifty_state.audio_lmb ≤ fifty_state.audio_eoq ∧
      fifty_state.audio_eoq ≤ fifty_state.audio_umb ∧ (0 : Int) ≤ 176350 ∧
      (fifty_state.audio_occupancy : Int) + 176350 ≤ ((buffer_size / 4 : Nat) : Int)) ∧
    ((play fifty_state ramp 176350).1 = 0 ∧
    ((play fifty_state ramp 176350).2.audio_occupancy : Int) =
      (fifty_state.audio_occupancy : Int) + 176350 ∧
    fifty_state.audio_lmb ≤ (play fifty_state ramp 176350).2.audio_eoq ∧
    (play fifty_state ramp 176350).2.audio_eoq ≤ fifty_state.audio_umb ∧
    ((play fifty_state ramp 176350).2.audio_eoq - fifty_state.audio_lmb) % buffer_size =
      (fifty_state.audio_eoq - fifty_state.audio_lmb + 4 * (176350 : Int).toNat) % buffer_size ∧
    (play fifty_state ramp 176350).2.audio_toq = fifty_state.audio_toq) :=
  ⟨⟨by decide, by decide, by decide, by decide, by decide⟩,
   play_postcondition fifty_state ramp 176350 (by decide) (by decide) (by decide) (by decide)
     (by decide)⟩

/-- C8: drain state effect. For every state satisfying the store invariants and every
`nframes`, with `transferable = min nframes audio_occupancy`, `jack_stream_write_cb`
leaves the head cursor inside the buffer at an offset congruent to the old offset
plus `4 * transferable` modulo `buffer_size`, lowers the occupancy by `transferable`,
and leaves the tail cursor, the bounds and every byte of memory unchanged. -/
theorem drain_state_effect (s : State) (hs : Inv s) (nframes : Nat) (L R : PortBuffer)
    (lat : jack_latency_range_t) (now : Int) :
    s.audio_lmb ≤ (jack_stream_write_cb s nframes L R lat now).state.audio_toq ∧
    (jack_stream_write_cb s nframes L R lat now).state.audio_toq ≤ s.audio_umb ∧
    ((jack_stream_write_cb s nframes L R lat now).state.audio_toq - s.audio_lmb) % buffer_size =
      (s.audio_toq - s.audio_lmb + 4 * min nframes s.audio_occupancy) % buffer_size ∧
    (jack_stream_write_cb s nframes L R lat now).state.audio_occupancy =
      s.audio_occupancy - min nframes s.audio_occupancy ∧
    (jack_stream_write_cb s nframes L R lat now).state.audio_eoq = s.audio_eoq ∧
    (jack_stream_write_cb s nframes L R lat now).state.audio_lmb = s.audio_lmb ∧
    (jack_stream_write_cb s nframes L R lat now).state.audio_umb = s.audio_umb ∧
    (∀ a, (jack_stream_write_cb s nframes L R lat now).state.mem a = s.mem a) := by
  have ht := drain_state_toq s hs nframes L R lat now
  have hocc := drain_state_occupancy s hs nframes L R lat now
  unfold transferable at ht hocc
  obtain ⟨h1, h2, h3, h4, h5, h6, h7, h8, h9⟩ := hs
  rw [ht]
  refine ⟨?_, ?_, ?_, hocc, rfl, rfl, rfl, fun _ => rfl⟩ <;>
    (rw [buffer_size_eq] at *; split <;> omega)

/-- C8, witness: a drain of 80 frames out of a buffered run that crosses the upper bound. -/
theorem drain_state_effect_witness :
    Inv wrapped_state ∧
    (wrapped_state.audio_lmb ≤
      (jack_stream_write_cb wrapped_state 80 sevens sevens { min := 0, max := 0 } 0).state.audio_toq ∧
    (jack_stream_write_cb wrapped_state 80 sevens sevens { min := 0, max := 0 } 0).state.audio_toq ≤
      wrapped_state.audio_umb ∧
    ((jack_stream_write_cb wrapped_state 80 sevens sevens { min := 0, max := 0 } 0).state.audio_toq
        - wrapped_state.audio_lmb) % buffer_size =
      (wrapped_state.audio_toq - wrapped_state.audio_lmb
        + 4 * min 80 wrapped_state.audio_occupancy) % buffer_size ∧
    (jack_stream_write_cb wrapped_state 80 sevens sevens { min := 0, max := 0 } 0).state.audio_occupancy =
      wrapped_state.audio_occupancy - min 80 wrapped_state.audio_occupancy ∧
    (jack_stream_write_cb wrapped_state 80 sevens sevens { min := 0, max := 0 } 0).state.audio_eoq =
      wrapped_state.audio_eoq ∧
    (jack_stream_write_cb wrapped_state 80 sevens sevens { min := 0, max := 0 } 0).state.audio_lmb =
      wrapped_state.audio_lmb ∧
    (jack_stream_write_cb wrapped_state 80 sevens sevens { min := 0, max := 0 } 0).state.audio_umb =
      wrapped_state.audio_umb ∧
    (∀ a, (jack_stream_write_cb wrapped_state 80 sevens sevens { min := 0, max := 0 } 0).state.mem a =
      wrapped_state.mem a)) :=
  have hi : Inv wrapped_state := by decide
  ⟨hi, drain_state_effect wrapped_state hi 80 sevens sevens { min := 0, max := 0 } 0⟩

/-! ## The sample conversion -/

theorem short_of_bytes_range (lo hi : Byte) :
    -32768 ≤ short_of_bytes lo hi ∧ short_of_bytes lo hi ≤ 32767 := by
  unfold short_of_bytes
  have h1 := lo.isLt
  have h2 := hi.isLt
  simp only []
  split <;> omega

theorem convert_sample_nonneg (s : Int) (h : 0 ≤ s) : convert_sample s = (s : ℚ) / 32767 := by
  unfold convert_sample SHRT_MAX
  rw [if_pos h]
  norm_num

theorem convert_sample_neg (s : Int) (h : s < 0) : convert_sample s = (s : ℚ) / 32768 := by
  unfold convert_sample SHRT_MIN
  rw [if_neg (by omega)]
  push_cast
  rw [neg_div_neg_eq, one_mul]

/-- C9: conversion fidelity. The per-sample conversion of
`deinterleave_and_convert_stream`, in exact arithmetic, maps the sample 0 to 0, the
sample 32767 to 1 and the sample -32768 to -1; these three samples are the `short`
values of the byte pairs (0, 0), (255, 127) and (0, 128), and a one-frame run of
`deinterleave_and_convert_stream` over a memory holding such a pair writes that value. -/
theorem conversion_fidelity :
    convert_sample 0 = 0 ∧ convert_sample 32767 = 1 ∧ convert_sample (-32768) = -1 ∧
    short_of_bytes 0 0 = 0 ∧ short_of_bytes 255 127 = 32767 ∧ short_of_bytes 0 128 = -32768 ∧
    (∀ (lo hi : Byte) (out : PortBuffer),
      deinterleave_and_convert_stream (fun a => if a = 0 then lo else hi) 0 out 0 1
        ift_type.IFT_frame_left_sample 0 = convert_sample (short_of_bytes lo hi)) := by
  refine ⟨?_, ?_, ?_, by decide, by decide, by decide, ?_⟩
  · rw [convert_sample_nonneg 0 (by omega)]
    norm_num
  · rw [convert_sample_nonneg 32767 (by omega)]
    norm_num
  · rw [convert_sample_neg (-32768) (by omega)]
    norm_num
  · intro lo hi out
    rw [deinterleave_left_apply, if_pos (by omega)]
    rfl

/-- C10: conversion scaling. For every signed 16-bit sample `s`, the converted value is
`s / 32767` when `s ≥ 0` and `s / 32768` when `s < 0`, in exact rational arithmetic; it
lies between -1 and 1, is negative for negative `s`, zero for `s = 0` and positive for
positive `s`, and has magnitude 1 exactly when `s = 32767` or `s = -32768`. -/
theorem conversion_scaling (s : Int) (hlo : -32768 ≤ s) (hhi : s ≤ 32767) :
    (0 ≤ s → convert_sample s = (s : ℚ) / 32767) ∧
    (s < 0 → convert_sample s = (s : ℚ) / 32768) ∧
    -1 ≤ convert_sample s ∧ convert_sample s ≤ 1 ∧
    (s < 0 → convert_sample s < 0) ∧
    (s = 0 → convert_sample s = 0) ∧
    (0 < s → 0 < convert_sample s) ∧
    (|convert_sample s| = 1 ↔ s = 32767 ∨ s = -32768) := by
  have hloq : (-32768 : ℚ) ≤ (s : ℚ) := by exact_mod_cast hlo
  have hhiq : (s : ℚ) ≤ 32767 := by exact_mod_cast hhi
  by_cases h : 0 ≤ s
  · have hc := convert_sample_nonneg s h
    have hq : (0 : ℚ) ≤ (s : ℚ) := by exact_mod_cast h
    have hval : 0 ≤ convert_sample s := by
      rw [hc]
      positivity
    refine ⟨fun _ => hc, fun h' => absurd h' (by omega), ?_, ?_, fun h' => absurd h' (by omega),
      ?_, ?_, ?_⟩
    · linarith
    · rw [hc, div_le_one (by norm_num)]
      exact hhiq
    · intro h0
      rw [hc, h0]
      norm_num
    · intro hpos
      have hq' : (0 : ℚ) < (s : ℚ) := by exact_mod_cast hpos
      rw [hc]
      positivity
    · rw [abs_of_nonneg hval, hc, div_eq_one_iff_eq (by norm_num)]
      constructor
      · intro he
        left
        exact_mod_cast he
      · intro he
        rcases he with he | he
        · rw [he]
          norm_num
        · omega
  · have hneg : s < 0 := by omega
    have hc := convert_sample_neg s hneg
    have hq : (s : ℚ) < 0 := by exact_mod_cast hneg
    have hval : convert_sample s < 0 := by
      rw [hc]
      exact div_neg_of_neg_of_pos hq (by norm_num)
    refine ⟨fun h' => absurd h' h, fun _ => hc, ?_, ?_, fun _ => hval,
      fun h' => absurd h' (by omega), fun h' => absurd h' (by omega), ?_⟩
    · rw [hc, le_div_iff₀ (by norm_num)]
      linarith
    · linarith
    · rw [abs_of_neg hval, hc, neg_eq_iff_eq_neg, div_eq_iff (by norm_num)]
      constructor
      · intro he
        right
        have : (s : ℚ) = ((-32768 : Int) : ℚ) := by
          rw [he]
          norm_num
        exact_mod_cast this
      · intro he
        rcases he with he | he
        · omega
        · rw [he]
          norm_num

/-- C10, witness: the sample -12345. -/
theorem conversion_scaling_witness :
    ((-32768 : Int) ≤ -12345 ∧ (-12345 : Int) ≤ 32767) ∧
    (((0 : Int) ≤ -12345 → convert_sample (-12345) = ((-12345 : Int) : ℚ) / 32767) ∧
    ((-12345 : Int) < 0 → convert_sample (-12345) = ((-12345 : Int) : ℚ) / 32768) ∧
    -1 ≤ convert_sample (-12345) ∧ convert_sample (-12345) ≤ 1 ∧
    ((-12345 : Int) < 0 → convert_sample (-12345) < 0) ∧
    ((-12345 : Int) = 0 → convert_sample (-12345) = 0) ∧
    ((0 : Int) < -12345 → 0 < convert_sample (-12345)) ∧
    (|convert_sample (-12345)| = 1 ↔ (-12345 : Int) = 32767 ∨ (-12345 : Int) = -32768)) :=
  ⟨⟨by decide, by decide⟩, conversion_scaling (-12345) (by decide) (by decide)⟩

/-! ## Deinterleaving -/

theorem convert_loop_congr (mem mem2 : Mem) (k ifp fp : Nat) (out : PortBuffer)
    (h : ∀ i, i < k → read_short mem2 (ifp + 4 * i) = read_short mem (ifp + 4 * i)) :
    convert_loop mem2 k ifp fp out = convert_loop mem k ifp fp out := by
  funext j
  rw [convert_loop_apply, convert_loop_apply]
  by_cases hj : fp ≤ j ∧ j < fp + k
  · rw [if_pos hj, if_pos hj, h (j - fp) (by omega)]
  · rw [if_neg hj, if_neg hj]

/-- C11: deinterleaving selects the requested channel. For an interleaved input of
`n` stereo frames starting at address `a` (sample `k` being the `short` at address
`a + 2 * k`), `deinterleave_and_convert_stream` writes exactly the `n` positions
`fp ≤ j < fp + n` of the port buffer: position `fp + i` receives the conversion of
input sample `2 * i` for the left selector and of input sample `2 * i + 1` for the
right selector, every other position keeps its value; and the result depends on no
byte outside the `4 * n` bytes of the `2 * n` input samples. -/
theorem deinterleave_selects_channel (mem : Mem) (a : Nat) (out : PortBuffer) (fp n : Nat) :
    (∀ i, i < n →
      deinterleave_and_convert_stream mem a out fp n ift_type.IFT_frame_left_sample (fp + i) =
        convert_sample (read_short mem (a + 2 * (2 * i))) ∧
      deinterleave_and_convert_stream mem a out fp n ift_type.IFT_frame_right_sample (fp + i) =
        convert_sample (read_short mem (a + 2 * (2 * i + 1)))) ∧
    (∀ j, ¬ (fp ≤ j ∧ j < fp + n) → ∀ side,
      deinterleave_and_convert_stream mem a out fp n side j = out j) ∧
    (∀ mem2 : Mem, (∀ b, a ≤ b → b < a + 2 * (2 * n) → mem2 b = mem b) → ∀ side,
      deinterleave_and_convert_stream mem2 a out fp n side =
        deinterleave_and_convert_stream mem a out fp n side) := by
  refine ⟨?_, ?_, ?_⟩
  · intro i hi
    constructor
    · rw [deinterleave_left_apply, if_pos (by omega), frame_at_left]
      congr 2
      omega
    · rw [deinterleave_right_apply, if_pos (by omega), frame_at_right]
      congr 2
      omega
  · intro j hj side
    cases side
    · rw [deinterleave_left_apply, if_neg hj]
    · rw [deinterleave_right_apply, if_neg hj]
  · intro mem2 h side
    unfold deinterleave_and_convert_stream
    apply convert_loop_congr
    intro i hi
    unfold read_short
    split
    · rw [h _ (by omega) (by omega), h _ (by omega) (by omega)]
    · rw [h _ (by omega) (by omega), h _ (by omega) (by omega)]

/-! ## The delay estimate -/

theorem to_int64_range (z : Int) : -2 ^ 63 ≤ to_int64 z ∧ to_int64 z < 2 ^ 63 := by
  unfold to_int64
  omega

theorem to_int64_of_range (z : Int) (h1 : -2 ^ 63 ≤ z) (h2 : z < 2 ^ 63) : to_int64 z = z := by
  unfold to_int64
  omega

theorem frames_processed_range (s : State) (time_now : Int) :
    -2 ^ 31 ≤ frames_processed_since_latest_latency_check s time_now ∧
    frames_processed_since_latest_latency_check s time_now < 2 ^ 31 := by
  unfold frames_processed_since_latest_latency_check
  simp only []
  have h := to_int64_range (to_int64 (time_now - s.time_of_latest_latency_range) * 44100)
  omega

theorem jack_delay_value (s : State) (time_now : Int)
    (hmin : s.latest_latency_range.min < 2 ^ 32) (hocc : s.audio_occupancy < 2 ^ 62) :
    jack_delay s time_now =
      (0, (s.latest_latency_range.min : Int) + (s.audio_occupancy : Int)
            - frames_processed_since_latest_latency_check s time_now) := by
  have h := frames_processed_range s time_now
  unfold jack_delay
  simp only []
  refine congrArg (Prod.mk 0) ?_
  generalize frames_processed_since_latest_latency_check s time_now = f at *
  unfold to_int64 to_size_t
  omega

/-- Within the range of `int64_t` the drain-to-now frame estimate is the floor of
`(time_now - snapshot time) * 44100 / 2 ^ 32`. -/
theorem frames_processed_exact (s : State) (time_now : Int)
    (h1 : -2 ^ 63 ≤ (time_now - s.time_of_latest_latency_range) * 44100)
    (h2 : (time_now - s.time_of_latest_latency_range) * 44100 < 2 ^ 63) :
    frames_processed_since_latest_latency_check s time_now =
      (time_now - s.time_of_latest_latency_range) * 44100 / 2 ^ 32 := by
  unfold frames_processed_since_latest_latency_check
  simp only []
  rw [to_int64_of_range (time_now - s.time_of_latest_latency_range) (by omega) (by omega),
    to_int64_of_range _ h1 h2]

/-- While `(time_now - snapshot time) * 44100` stays within `int64_t`, `jack_delay` returns 0
and stores `min + occupancy - floor ((time_now - snapshot time) * 44100 / 2 ^ 32)`. -/
theorem jack_delay_exact (s : State) (time_now : Int)
    (hmin : s.latest_latency_range.min < 2 ^ 32) (hocc : s.audio_occupancy < 2 ^ 62)
    (h1 : -2 ^ 63 ≤ (time_now - s.time_of_latest_latency_range) * 44100)
    (h2 : (time_now - s.time_of_latest_latency_range) * 44100 < 2 ^ 63) :
    jack_delay s time_now =
      (0, (s.latest_latency_range.min : Int) + (s.audio_occupancy : Int)
            - (time_now - s.time_of_latest_latency_range) * 44100 / 2 ^ 32) := by
  rw [jack_delay_value s time_now hmin hocc, frames_processed_exact s time_now h1 h2]

/-- C12, evaluation at the failing input: with the latency snapshot never taken (time 0,
minimum 0), an empty store and the clock at `2 ^ 48` (65536 seconds), the product
`delta * 44100` leaves the range of `int64_t`; `jack_delay` stores 1404829696, whereas
`min + occupancy - floor ((now - t) * 44100 / 2 ^ 32)` is -2890137600. -/
theorem jack_delay_overflow :
    jack_delay never_drained_state (2 ^ 48) = (0, 1404829696) ∧
    (never_drained_state.latest_latency_range.min : Int) + never_drained_state.audio_occupancy
        - ((2 ^ 48 - never_drained_state.time_of_latest_latency_range) * 44100 / 2 ^ 32)
      = -2890137600 ∧
    (2 : Int) ^ 63 ≤ (2 ^ 48 - never_drained_state.time_of_latest_latency_range) * 44100 := by
  refine ⟨?_, ?_, ?_⟩ <;> decide

/-- C13: flush then delay. For every state, `jack_delay` called after `jack_flush`
returns 0 and stores the minimum of the latency range minus the frames estimated as
processed since the snapshot: the occupancy contributes nothing, and the value is the
same whatever was buffered before the flush. -/
theorem flush_then_delay (s : State) (time_now : Int)
    (hmin : s.latest_latency_range.min < 2 ^ 32) :
    (jack_delay (jack_flush s) time_now).1 = 0 ∧
    (jack_delay (jack_flush s) time_now).2 =
      (s.latest_latency_range.min : Int)
        - frames_processed_since_latest_latency_check s time_now ∧
    (∀ s2 : State, s2.latest_latency_range = s.latest_latency_range →
      s2.time_of_latest_latency_range = s.time_of_latest_latency_range →
      jack_delay (jack_flush s2) time_now = jack_delay (jack_flush s) time_now) := by
  have hv : ∀ s2 : State, s2.latest_latency_range = s.latest_latency_range →
      s2.time_of_latest_latency_range = s.time_of_latest_latency_range →
      jack_delay (jack_flush s2) time_now =
        (0, (s.latest_latency_range.min : Int)
              - frames_processed_since_latest_latency_check s time_now) := by
    intro s2 hl ht
    have hmin2 : (jack_flush s2).latest_latency_range.min < 2 ^ 32 := by
      show s2.latest_latency_range.min < 2 ^ 32
      rw [hl]
      exact hmin
    rw [jack_delay_value (jack_flush s2) time_now hmin2 (by show (0 : Nat) < 2 ^ 62; omega)]
    have hf : frames_processed_since_latest_latency_check (jack_flush s2) time_now =
        frames_processed_since_latest_latency_check s time_now := by
      unfold frames_processed_since_latest_latency_check
      show (to_int64 (to_int64 (time_now - s2.time_of_latest_latency_range) * 44100)) / 2 ^ 32 = _
      rw [ht]
    rw [hf]
    show (0, (s2.latest_latency_range.min : Int) + ((0 : Nat) : Int) - _) = _
    rw [hl]
    simp
  refine ⟨rfl, ?_, ?_⟩
  · rw [hv s rfl rfl]
  · intro s2 hl ht
    rw [hv s2 hl ht, hv s rfl rfl]

/-- C13, witness: 50 frames buffered, snapshot of minimum 256 taken two seconds ago. -/
theorem flush_then_delay_witness :
    snapshot_state.latest_latency_range.min < 2 ^ 32 ∧
    ((jack_delay (jack_flush snapshot_state) (2 ^ 40 + 2 ^ 33)).1 = 0 ∧
    (jack_delay (jack_flush snapshot_state) (2 ^ 40 + 2 ^ 33)).2 =
      (snapshot_state.latest_latency_range.min : Int)
        - frames_processed_since_latest_latency_check snapshot_state (2 ^ 40 + 2 ^ 33) ∧
    (∀ s2 : State, s2.latest_latency_range = snapshot_state.latest_latency_range →
      s2.time_of_latest_latency_range = snapshot_state.time_of_latest_latency_range →
      jack_delay (jack_flush s2) (2 ^ 40 + 2 ^ 33) =
        jack_delay (jack_flush snapshot_state) (2 ^ 40 + 2 ^ 33))) :=
  ⟨by decide, flush_then_delay snapshot_state (2 ^ 40 + 2 ^ 33) (by decide)⟩

/-! ## Flush and the lifecycle -/

/-- C14: flush resets the store and is idempotent. From every state `jack_flush` yields
head = tail = lower bound (the lower bound itself unchanged), occupancy 0 and upper
bound = lower bound + `buffer_size`; this is the empty store `init` establishes, which
`jack_flush` therefore leaves as it is; the open flag, the client and port handles, the
sample rate, the latency snapshot and the memory are unchanged; and flushing twice
gives the same state as flushing once. -/
theorem flush_resets_store (s : State) :
    ((jack_flush s).audio_lmb = s.audio_lmb ∧
      (jack_flush s).audio_toq = s.audio_lmb ∧ (jack_flush s).audio_eoq = s.audio_lmb ∧
      (jack_flush s).audio_occupancy = 0 ∧
      (jack_flush s).audio_umb = s.audio_lmb + buffer_size) ∧
    (∀ (s0 : State) (malloc_result : Nat) (r : Int) (s1 : State),
      init s0 malloc_result = some (r, s1) →
        s1.audio_toq = s1.audio_lmb ∧ s1.audio_eoq = s1.audio_lmb ∧ s1.audio_occupancy = 0 ∧
        s1.audio_umb = s1.audio_lmb + buffer_size ∧ jack_flush s1 = s1) ∧
    ((jack_flush s).client_is_open = s.client_is_open ∧ (jack_flush s).client = s.client ∧
      (jack_flush s).left_port = s.left_port ∧ (jack_flush s).right_port = s.right_port ∧
      (jack_flush s).sample_rate = s.sample_rate ∧
      (jack_flush s).latest_latency_range = s.latest_latency_range ∧
      (jack_flush s).time_of_latest_latency_range = s.time_of_latest_latency_range ∧
      (jack_flush s).mem = s.mem) ∧
    jack_flush (jack_flush s) = jack_flush s := by
  refine ⟨⟨rfl, rfl, rfl, rfl, rfl⟩, ?_, ⟨rfl, rfl, rfl, rfl, rfl, rfl, rfl, rfl⟩, rfl⟩
  intro s0 p r s1 h
  unfold init at h
  split at h
  · exact absurd h (by simp)
  · simp only [Option.some.injEq, Prod.mk.injEq] at h
    obtain ⟨_, rfl⟩ := h
    exact ⟨rfl, rfl, rfl, rfl, rfl⟩

/-- C15: lifecycle idempotence. In every state with the connection open
(`client_is_open = 1`), for every argument, `jack_start` makes no call to the JACK library
(no client open, no port registration, no activation) and returns the state unchanged,
port handles and sample rate included; a second `jack_start` does the same, so the two
calls together register each port at most once. -/
theorem start_when_open (s : State) (jack jack2 : JackReplies)
    (i_sample_rate i_sample_format i_sample_rate2 i_sample_format2 : Int)
    (h : s.client_is_open = 1) :
    jack_start s jack i_sample_rate i_sample_format = (s, []) ∧
    jack_start (jack_start s jack i_sample_rate i_sample_format).1 jack2 i_sample_rate2
      i_sample_format2 = (s, []) ∧
    ((jack_start s jack i_sample_rate i_sample_format).2 ++
      (jack_start (jack_start s jack i_sample_rate i_sample_format).1 jack2 i_sample_rate2
        i_sample_format2).2).count JackCall.jack_port_register_left ≤ 1 ∧
    ((jack_start s jack i_sample_rate i_sample_format).2 ++
      (jack_start (jack_start s jack i_sample_rate i_sample_format).1 jack2 i_sample_rate2
        i_sample_format2).2).count JackCall.jack_port_register_right ≤ 1 := by
  have hne : ¬ s.client_is_open = 0 := by omega
  have h1 : ∀ (j : JackReplies) (a b : Int), jack_start s j a b = (s, []) := by
    intro j a b
    unfold jack_start
    rw [if_neg hne]
  rw [h1 jack, h1 jack2]
  exact ⟨rfl, rfl, by simp, by simp⟩

/-- C15, witness: two starts on an open connection. -/
theorem start_when_open_witness :
    open_state.client_is_open = 1 ∧
    (jack_start open_state all_fine 44100 16 = (open_state, []) ∧
    jack_start (jack_start open_state all_fine 44100 16).1 no_activation 48000 24
      = (open_state, []) ∧
    ((jack_start open_state all_fine 44100 16).2 ++
      (jack_start (jack_start open_state all_fine 44100 16).1 no_activation 48000 24).2).count
        JackCall.jack_port_register_left ≤ 1 ∧
    ((jack_start open_state all_fine 44100 16).2 ++
      (jack_start (jack_start open_state all_fine 44100 16).1 no_activation 48000 24).2).count
        JackCall.jack_port_register_right ≤ 1) :=
  ⟨rfl, start_when_open open_state all_fine no_activation 44100 16 48000 24 rfl⟩

theorem jack_is_running_closed (s : State) (t : jack_transport_state_t)
    (h : s.client_is_open = 0) : (jack_is_running s t).1 = -1 := by
  unfold jack_is_running
  simp [h]

theorem jack_start_flag (s : State) (jack : JackReplies) (i_sample_rate i_sample_format : Int)
    (h : s.client_is_open = 0) :
    (jack_start s jack i_sample_rate i_sample_format).1.client_is_open =
      if jack.client ≠ 0 ∧ jack.activate = 0 then 1 else 0 := by
  unfold jack_start
  rw [if_pos h]
  by_cases hc : jack.client = 0
  · simp [hc, h]
  · by_cases ha : jack.activate = 0
    · simp [hc, ha]
    · simp [hc, ha, h]

theorem jack_start_store (s : State) (jack : JackReplies) (i_sample_rate i_sample_format : Int) :
    (jack_start s jack i_sample_rate i_sample_format).1.audio_occupancy = s.audio_occupancy ∧
    (jack_start s jack i_sample_rate i_sample_format).1.audio_toq = s.audio_toq ∧
    (jack_start s jack i_sample_rate i_sample_format).1.audio_eoq = s.audio_eoq ∧
    (jack_start s jack i_sample_rate i_sample_format).1.audio_lmb = s.audio_lmb ∧
    (jack_start s jack i_sample_rate i_sample_format).1.audio_umb = s.audio_umb ∧
    (jack_start s jack i_sample_rate i_sample_format).1.mem = s.mem := by
  unfold jack_start
  split
  · split
    · split <;> exact ⟨rfl, rfl, rfl, rfl, rfl, rfl⟩
    · exact ⟨rfl, rfl, rfl, rfl, rfl, rfl⟩
  · exact ⟨rfl, rfl, rfl, rfl, rfl, rfl⟩

/-- C16: start failure leaves the driver closed. Starting from `client_is_open = 0`,
`jack_start` always returns; if `jack_client_open` returns no client or `jack_activate`
returns non-zero, the open flag is still 0 afterwards and `jack_is_running` then
returns -1 whatever the transport reports, hence not 0; the flag is 1 afterwards
exactly when a client was returned and the activation returned 0; and the frame
store is untouched in every case. -/
theorem start_failure_stays_closed (s : State) (jack : JackReplies)
    (i_sample_rate i_sample_format : Int) (h : s.client_is_open = 0) :
    (jack.client = 0 ∨ jack.activate ≠ 0 →
      (jack_start s jack i_sample_rate i_sample_format).1.client_is_open = 0 ∧
      ∀ t, (jack_is_running (jack_start s jack i_sample_rate i_sample_format).1 t).1 = -1 ∧
           (jack_is_running (jack_start s jack i_sample_rate i_sample_format).1 t).1 ≠ 0) ∧
    ((jack_start s jack i_sample_rate i_sample_format).1.client_is_open = 1 ↔
      jack.client ≠ 0 ∧ jack.activate = 0) ∧
    ((jack_start s jack i_sample_rate i_sample_format).1.audio_occupancy = s.audio_occupancy ∧
      (jack_start s jack i_sample_rate i_sample_format).1.audio_toq = s.audio_toq ∧
      (jack_start s jack i_sample_rate i_sample_format).1.audio_eoq = s.audio_eoq ∧
      (jack_start s jack i_sample_rate i_sample_format).1.audio_lmb = s.audio_lmb ∧
      (jack_start s jack i_sample_rate i_sample_format).1.audio_umb = s.audio_umb ∧
      (jack_start s jack i_sample_rate i_sample_format).1.mem = s.mem) := by
  have hf := jack_start_flag s jack i_sample_rate i_sample_format h
  refine ⟨?_, ?_, jack_start_store s jack i_sample_rate i_sample_format⟩
  · intro hfail
    have h0 : (jack_start s jack i_sample_rate i_sample_format).1.client_is_open = 0 := by
      rw [hf, if_neg]
      rintro ⟨hc, ha⟩
      rcases hfail with h1 | h1
      · exact hc h1
      · exact h1 ha
    refine ⟨h0, fun t => ?_⟩
    rw [jack_is_running_closed _ t h0]
    exact ⟨rfl, by decide⟩
  · rw [hf]
    by_cases hok : jack.client ≠ 0 ∧ jack.activate = 0
    · rw [if_pos hok]
      exact ⟨fun _ => hok, fun _ => rfl⟩
    · rw [if_neg hok]
      exact ⟨fun h1 => absurd h1 (by decide), fun h1 => absurd h1 hok⟩

/-- C16, witness: the client opens but cannot be activated. -/
theorem start_failure_stays_closed_witness :
    fifty_state.client_is_open = 0 ∧
    ((no_activation.client = 0 ∨ no_activation.activate ≠ 0 →
      (jack_start fifty_state no_activation 44100 16).1.client_is_open = 0 ∧
      ∀ t, (jack_is_running (jack_start fifty_state no_activation 44100 16).1 t).1 = -1 ∧
           (jack_is_running (jack_start fifty_state no_activation 44100 16).1 t).1 ≠ 0) ∧
    ((jack_start fifty_state no_activation 44100 16).1.client_is_open = 1 ↔
      no_activation.client ≠ 0 ∧ no_activation.activate = 0) ∧
    ((jack_start fifty_state no_activation 44100 16).1.audio_occupancy
        = fifty_state.audio_occupancy ∧
      (jack_start fifty_state no_activation 44100 16).1.audio_toq = fifty_state.audio_toq ∧
      (jack_start fifty_state no_activation 44100 16).1.audio_eoq = fifty_state.audio_eoq ∧
      (jack_start fifty_state no_activation 44100 16).1.audio_lmb = fifty_state.audio_lmb ∧
      (jack_start fifty_state no_activation 44100 16).1.audio_umb = fifty_state.audio_umb ∧
      (jack_start fifty_state no_activation 44100 16).1.mem = fifty_state.mem)) :=
  ⟨by decide, start_failure_stays_closed fifty_state no_activation 44100 16 (by decide)⟩

/-- C17: the running-state query is a three-way result. `jack_is_running` returns -1
exactly when `client_is_open` is 0, returns 0 exactly when the connection is open and the
transport query reports `JackTransportRolling`, returns -2 exactly when the connection is
open and the transport reports any other state; it returns no other value and leaves
the whole state, frame store and open flag included, unchanged. -/
theorem is_running_three_way (s : State) (t : jack_transport_state_t) :
    ((jack_is_running s t).1 = -1 ↔ s.client_is_open = 0) ∧
    ((jack_is_running s t).1 = 0 ↔
      s.client_is_open ≠ 0 ∧ t = jack_transport_state_t.JackTransportRolling) ∧
    ((jack_is_running s t).1 = -2 ↔
      s.client_is_open ≠ 0 ∧ t ≠ jack_transport_state_t.JackTransportRolling) ∧
    ((jack_is_running s t).1 = -1 ∨ (jack_is_running s t).1 = 0 ∨
      (jack_is_running s t).1 = -2) ∧
    (jack_is_running s t).2 = s := by
  unfold jack_is_running
  by_cases ho : s.client_is_open = 0
  · simp [ho]
  · by_cases ht : t = jack_transport_state_t.JackTransportRolling
    · simp [ho, ht]
    · simp [ho, ht]

/-! ## Cursor/occupancy consistency -/

theorem inv_iff_consistent (s : State) :
    Inv s ↔ Consistent s ∧ s.audio_occupancy * 4 ≤ buffer_size := by
  unfold Inv Consistent
  rw [buffer_size_eq]
  constructor
  · rintro ⟨h1, h2, h3, h4, h5, h6, h7, h8, h9⟩
    refine ⟨⟨h1, ⟨h2, h6, ?_⟩, ⟨h4, h7, ?_⟩, ?_⟩, h8⟩ <;> omega
  · rintro ⟨⟨h1, ⟨h2, h3, h4⟩, ⟨h5, h6, h7⟩, h8⟩, h9⟩
    refine ⟨h1, h2, ?_, h5, ?_, h3, h6, h9, ?_⟩ <;> omega

/-- C19: cursor/occupancy consistency. In every state reached from `init` by `play`,
drain and flush calls that keep the occupancy within the capacity, the head and tail
offsets are multiples of four lying in `[0, buffer_size]` and tail offset minus head
offset is congruent to `4 * audio_occupancy` modulo `buffer_size`; `init` and `jack_flush`
establish this predicate, and `play` and `jack_stream_write_cb` preserve it on every
state whose occupancy stays within the capacity. -/
theorem consistency_invariant (s : State) (q : List Frame) (hs : Reachable s q) :
    Consistent s ∧
    (∀ (s0 : State) (malloc_result : Nat) (r : Int) (s1 : State),
      init s0 malloc_result = some (r, s1) → Consistent s1) ∧
    (∀ (s1 : State) (buf : Nat → Byte) (samples : Int), Consistent s1 → 0 ≤ samples →
      (s1.audio_occupancy : Int) + samples ≤ ((buffer_size / 4 : Nat) : Int) →
      Consistent (play s1 buf samples).2) ∧
    (∀ (s1 : State) (nframes : Nat) (L R : PortBuffer) (lat : jack_latency_range_t) (now : Int),
      Consistent s1 → s1.audio_occupancy * 4 ≤ buffer_size →
      Consistent (jack_stream_write_cb s1 nframes L R lat now).state) ∧
    (∀ s1 : State, Consistent s1 → Consistent (jack_flush s1)) := by
  refine ⟨?_, ?_, ?_, ?_, ?_⟩
  · exact ((inv_iff_consistent s).1 (reachable_inv s q hs).1).1
  · intro s0 p r s1 h
    exact ((inv_iff_consistent s1).1 (init_inv s0 p r s1 h).1).1
  · intro s1 buf samples hc h0 hcap
    lift samples to ℕ using h0 with n
    have hcap2 : s1.audio_occupancy + n ≤ buffer_size / 4 := by exact_mod_cast hcap
    have hi : Inv s1 := (inv_iff_consistent s1).2 ⟨hc, by rw [buffer_size_eq] at *; omega⟩
    exact ((inv_iff_consistent _).1 (play_inv s1 hi buf n hcap2)).1
  · intro s1 nframes L R lat now hc hocc
    have hi : Inv s1 := (inv_iff_consistent s1).2 ⟨hc, hocc⟩
    exact ((inv_iff_consistent _).1 (drain_inv s1 hi nframes L R lat now)).1
  · intro s1 _
    exact ((inv_iff_consistent _).1 (flush_inv s1).1).1

/-- C19, witness: the state after `init` and a `play` of 50 frames. -/
theorem consistency_invariant_witness :
    Reachable fifty_state (frames ramp 50) ∧
    (Consistent fifty_state ∧
    (∀ (s0 : State) (malloc_result : Nat) (r : Int) (s1 : State),
      init s0 malloc_result = some (r, s1) → Consistent s1) ∧
    (∀ (s1 : State) (buf : Nat → Byte) (samples : Int), Consistent s1 → 0 ≤ samples →
      (s1.audio_occupancy : Int) + samples ≤ ((buffer_size / 4 : Nat) : Int) →
      Consistent (play s1 buf samples).2) ∧
    (∀ (s1 : State) (nframes : Nat) (L R : PortBuffer) (lat : jack_latency_range_t) (now : Int),
      Consistent s1 → s1.audio_occupancy * 4 ≤ buffer_size →
      Consistent (jack_stream_write_cb s1 nframes L R lat now).state) ∧
    (∀ s1 : State, Consistent s1 → Consistent (jack_flush s1))) :=
  have hr : Reachable fifty_state (frames ramp 50) :=
    Reachable.play fresh_state [] ramp 50 (Reachable.init boot_state 4096 0 fresh_state rfl)
      (by decide) (by decide)
  ⟨hr, consistency_invariant fifty_state (frames ramp 50) hr⟩

/-! ## In-bounds access -/

theorem memcpy_checked_eq (lo hi : Nat) (mem : Mem) (dst : Nat) (src : Nat → Byte) (n : Nat)
    (h : n = 0 ∨ (lo ≤ dst ∧ dst + n ≤ hi)) :
    memcpy_checked lo hi mem dst src n = some (memcpy mem dst src n) := by
  unfold memcpy_checked
  rw [if_pos h]

theorem convert_loop_checked_eq (lo hi len : Nat) (mem : Mem) (k ifp fp : Nat) (out : PortBuffer)
    (hr : k = 0 ∨ (lo ≤ ifp ∧ ifp + 4 * k ≤ hi + 2)) (hw : k = 0 ∨ fp + k ≤ len) :
    convert_loop_checked lo hi len mem k ifp fp out = some (convert_loop mem k ifp fp out) := by
  induction k generalizing ifp fp out with
  | zero => rfl
  | succ k ih =>
      unfold convert_loop_checked convert_loop read_short_checked write_sample_checked
      rw [if_pos (by omega), Option.some_bind, if_pos (by omega), Option.some_bind]
      exact ih _ _ _ (by omega) (by omega)

theorem deinterleave_checked_eq (lo hi len : Nat) (mem : Mem) (a : Nat) (out : PortBuffer)
    (fp k : Nat) (side : ift_type)
    (hr : k = 0 ∨ (lo ≤ a ∧ a + 4 * k ≤ hi)) (hw : k = 0 ∨ fp + k ≤ len) :
    deinterleave_and_convert_stream_checked lo hi len mem a out fp k side =
      some (deinterleave_and_convert_stream mem a out fp k side) := by
  unfold deinterleave_and_convert_stream_checked deinterleave_and_convert_stream
  simp only []
  apply convert_loop_checked_eq
  · split <;> omega
  · exact hw

theorem silence_loop_checked_eq (len c i : Nat) (bufs : PortBuffer × PortBuffer)
    (h : c = 0 ∨ i + c ≤ len) :
    silence_loop_checked len c i bufs = some (silence_loop c i bufs) := by
  induction c generalizing i bufs with
  | zero => rfl
  | succ c ih =>
      unfold silence_loop_checked silence_loop write_sample_checked
      rw [if_pos (by omega), Option.some_bind, if_pos (by omega), Option.some_bind]
      exact ih _ _ (by omega)

theorem play_checked_eq (s : State) (h1 : s.audio_umb = s.audio_lmb + buffer_size)
    (h4 : s.audio_lmb ≤ s.audio_eoq) (h5 : s.audio_eoq ≤ s.audio_umb)
    (buf : Nat → Byte) (n : Nat) (hcap : s.audio_occupancy + n ≤ buffer_size / 4) :
    play_checked s buf (n : Int) = some (play s buf (n : Int)) := by
  have e1 : to_size_t ((n : Int) * 2 * 2) = 4 * n := by
    rw [buffer_size_eq] at hcap
    unfold to_size_t
    omega
  have e2 : to_size_t ((s.audio_umb : Int) - (s.audio_eoq : Int)) = s.audio_umb - s.audio_eoq := by
    rw [buffer_size_eq] at h1
    unfold to_size_t
    omega
  unfold play_checked play
  simp only [e1, e2, ge_iff_le]
  by_cases hb : 4 * n ≤ s.audio_umb - s.audio_eoq
  · rw [if_pos hb, if_pos hb, memcpy_checked_eq _ _ _ _ _ _ (by omega), Option.some_bind]
  · rw [if_neg hb, if_neg hb, memcpy_checked_eq _ _ _ _ _ _ (by omega), Option.some_bind]
    rw [memcpy_checked_eq _ _ _ _ _ _ (by rw [buffer_size_eq] at *; omega), Option.some_bind]

theorem drain_checked_eq (s : State) (h1 : s.audio_umb = s.audio_lmb + buffer_size)
    (h2 : s.audio_lmb ≤ s.audio_toq) (h3 : s.audio_toq ≤ s.audio_umb)
    (h6 : (s.audio_toq - s.audio_lmb) % 4 = 0) (h8 : s.audio_occupancy * 4 ≤ buffer_size)
    (nframes : Nat) (L R : PortBuffer) (lat : jack_latency_range_t) (now : Int) :
    jack_stream_write_cb_checked s nframes L R lat now =
      some (jack_stream_write_cb s nframes L R lat now) := by
  unfold jack_stream_write_cb_checked jack_stream_write_cb
  rw [buffer_size_eq] at *
  simp only []
  have hk : (if s.audio_occupancy < nframes then s.audio_occupancy else nframes)
      = min nframes s.audio_occupancy := by
    split <;> omega
  rw [hk]
  generalize hkk : min nframes s.audio_occupancy = k
  have hk1 : k ≤ s.audio_occupancy := by omega
  have hk2 : k ≤ nframes := by omega
  have e1 : to_size_t ((k : Int) * 2 * 2) = 4 * k := by unfold to_size_t; omega
  have e2 : to_size_t ((s.audio_umb : Int) - (s.audio_toq : Int)) = s.audio_umb - s.audio_toq := by
    unfold to_size_t; omega
  have e3 : to_size_t (((s.audio_umb : Int) - (s.audio_toq : Int)).tdiv (2 * 2))
      = (s.audio_umb - s.audio_toq) / 4 := by
    rw [Int.tdiv_eq_ediv (by omega) (by omega)]
    unfold to_size_t; omega
  have e4 : to_nframes k = k := by unfold to_nframes; omega
  simp only [e1, e2, e3, e4]
  by_cases hb : 4 * k ≤ s.audio_umb - s.audio_toq
  · simp only [if_pos hb]
    rw [deinterleave_checked_eq _ _ _ _ _ _ _ _ _ (by omega) (by omega), Option.some_bind,
      deinterleave_checked_eq _ _ _ _ _ _ _ _ _ (by omega) (by omega), Option.some_bind,
      Option.some_bind, silence_loop_checked_eq _ _ _ _ (by omega), Option.some_bind]
  · generalize hf : (s.audio_umb - s.audio_toq) / 4 = f at *
    have hf4 : 4 * f = s.audio_umb - s.audio_toq := by omega
    have e5 : to_size_t ((k : Int) - (f : Int)) = k - f := by unfold to_size_t; omega
    have e6 : to_nframes (k - f) = k - f := by unfold to_nframes; omega
    have e7 : to_nframes f = f := by unfold to_nframes; omega
    simp only [if_neg hb, e5, e6, e7]
    by_cases hf0 : f = 0
    · simp only [hf0, ne_eq, not_true_eq_false, if_false, Option.some_bind]
      rw [deinterleave_checked_eq _ _ _ _ _ _ _ _ _ (by omega) (by omega), Option.some_bind,
        deinterleave_checked_eq _ _ _ _ _ _ _ _ _ (by omega) (by omega), Option.some_bind,
        Option.some_bind, silence_loop_checked_eq _ _ _ _ (by omega), Option.some_bind]
    · simp only [ne_eq, hf0, not_false_eq_true, if_true]
      rw [deinterleave_checked_eq _ _ _ _ _ _ _ _ _ (by omega) (by omega), Option.some_bind,
        deinterleave_checked_eq _ _ _ _ _ _ _ _ _ (by omega) (by omega), Option.some_bind,
        deinterleave_checked_eq _ _ _ _ _ _ _ _ _ (by omega) (by omega), Option.some_bind,
        deinterleave_checked_eq _ _ _ _ _ _ _ _ _ (by omega) (by omega), Option.some_bind,
        Option.some_bind, silence_loop_checked_eq _ _ _ _ (by omega), Option.some_bind]

/-- C20: in-bounds buffer access. For every state whose buffer is `buffer_size` bytes
long, with both cursors at a multiple of four bytes from the lower bound within
`[0, buffer_size]` (the upper bound included) and `audio_occupancy * 4 ≤ buffer_size`:
with every access checked, `jack_stream_write_cb` for any `nframes` and `play` for any
`samples ≥ 0` with `audio_occupancy + samples ≤ buffer_size / 4` never take the
out-of-range branch and return what the unchecked functions return. So every buffer
byte the drain reads and every buffer byte `play` writes has an offset in
`[0, buffer_size)`, and every port-buffer index the drain writes is below `nframes`. -/
theorem accesses_in_bounds (s : State)
    (hu : s.audio_umb = s.audio_lmb + buffer_size)
    (hh : s.audio_lmb ≤ s.audio_toq ∧ s.audio_toq ≤ s.audio_umb ∧
      (s.audio_toq - s.audio_lmb) % 4 = 0)
    (ht : s.audio_lmb ≤ s.audio_eoq ∧ s.audio_eoq ≤ s.audio_umb ∧
      (s.audio_eoq - s.audio_lmb) % 4 = 0)
    (ho : s.audio_occupancy * 4 ≤ buffer_size) :
    (∀ (nframes : Nat) (L R : PortBuffer) (lat : jack_latency_range_t) (now : Int),
      jack_stream_write_cb_checked s nframes L R lat now =
        some (jack_stream_write_cb s nframes L R lat now)) ∧
    (∀ (buf : Nat → Byte) (samples : Int), 0 ≤ samples →
      (s.audio_occupancy : Int) + samples ≤ ((buffer_size / 4 : Nat) : Int) →
      play_checked s buf samples = some (play s buf samples)) := by
  refine ⟨?_, ?_⟩
  · intro nframes L R lat now
    exact drain_checked_eq s hu hh.1 hh.2.1 hh.2.2 ho nframes L R lat now
  · intro buf samples h0 hcap
    lift samples to ℕ using h0 with n
    exact play_checked_eq s hu ht.1 ht.2.1 buf n (by exact_mod_cast hcap)

/-- C20, witness: the empty store with both cursors at the upper bound. -/
theorem accesses_in_bounds_witness :
    (upper_state.audio_umb = upper_state.audio_lmb + buffer_size ∧
      (upper_state.audio_lmb ≤ upper_state.audio_toq ∧
        upper_state.audio_toq ≤ upper_state.audio_umb ∧
        (upper_state.audio_toq - upper_state.audio_lmb) % 4 = 0) ∧
      (upper_state.audio_lmb ≤ upper_state.audio_eoq ∧
        upper_state.audio_eoq ≤ upper_state.audio_umb ∧
        (upper_state.audio_eoq - upper_state.audio_lmb) % 4 = 0) ∧
      upper_state.audio_occupancy * 4 ≤ buffer_size) ∧
    ((∀ (nframes : Nat) (L R : PortBuffer) (lat : jack_latency_range_t) (now : Int),
      jack_stream_write_cb_checked upper_state nframes L R lat now =
        some (jack_stream_write_cb upper_state nframes L R lat now)) ∧
    (∀ (buf : Nat → Byte) (samples : Int), 0 ≤ samples →
      (upper_state.audio_occupancy : Int) + samples ≤ ((buffer_size / 4 : Nat) : Int) →
      play_checked upper_state buf samples = some (play upper_state buf samples))) :=
  ⟨⟨by decide, by decide, by decide, by decide⟩,
   accesses_in_bounds upper_state (by decide) (by decide) (by decide) (by decide)⟩

/-- The checks are effective: a `play` of more than twice what the buffer holds makes the
checked `play` fail, and so does a drain whose head cursor lies at the end of the
allocated block with the upper bound beyond it. -/
theorem checked_detects_overrun :
    (play_checked fresh_state ramp 352801).isNone = true ∧
    (jack_stream_write_cb_checked beyond_state 10 sevens sevens { min := 0, max := 0 } 0).isNone
      = true := by
  constructor <;> decide

/-! ## `play` and the drain callback around the lock -/

theorem play_eq_copy_commit (s : State) (buf : Nat → Byte) (samples : Int) :
    play s buf samples =
      play_commit (play_copy s buf samples).1 (play_copy s buf samples).2 samples := by
  unfold play play_copy play_commit
  simp only []
  split <;> rfl

theorem play_copy_state (s : State) (buf : Nat → Byte) (samples : Int) :
    (play_copy s buf samples).1 = { s with mem := (play s buf samples).2.mem } := by
  unfold play play_copy
  simp only []
  split <;> rfl

theorem drain_state_congr_mem (s : State) (m : Mem) (nframes : Nat) (L R : PortBuffer)
    (lat : jack_latency_range_t) (now : Int) :
    (jack_stream_write_cb { s with mem := m } nframes L R lat now).state =
      { (jack_stream_write_cb s nframes L R lat now).state with mem := m } := by
  unfold jack_stream_write_cb
  simp only []
  split_ifs <;> rfl

theorem drain_then_commit (s : State) (buf : Nat → Byte) (samples : Int) (nframes : Nat)
    (L R : PortBuffer) (lat : jack_latency_range_t) (now : Int) :
    play_commit (jack_stream_write_cb (play_copy s buf samples).1 nframes L R lat now).state
        (play_copy s buf samples).2 samples =
      play (jack_stream_write_cb s nframes L R lat now).state buf samples := by
  rw [play_copy_state, drain_state_congr_mem]
  unfold play play_copy play_commit
  simp only [drain_state_umb, drain_state_eoq, drain_state_lmb, drain_state_mem]
  split <;> rfl

theorem play_copy_keeps_byte (s : State) (hs : Inv s) (buf : Nat → Byte) (n : Nat)
    (hcap : s.audio_occupancy + n ≤ buffer_size / 4) (i d : Nat)
    (hi : i < s.audio_occupancy) (hd : d < 4) :
    (play_copy s buf (n : Int)).1.mem (queue_addr s i + d) = s.mem (queue_addr s i + d) := by
  rw [play_copy_state]
  exact play_keeps_byte s hs buf n hcap i d hi hd

theorem drain_outputs_congr_mem (s : State) (hs : Inv s) (m : Mem)
    (hm : ∀ i d, i < s.audio_occupancy → d < 4 →
      m (queue_addr s i + d) = s.mem (queue_addr s i + d))
    (nframes : Nat) (L R : PortBuffer) (lat : jack_latency_range_t) (now : Int) :
    (jack_stream_write_cb { s with mem := m } nframes L R lat now).left_buffer =
      (jack_stream_write_cb s nframes L R lat now).left_buffer ∧
    (jack_stream_write_cb { s with mem := m } nframes L R lat now).right_buffer =
      (jack_stream_write_cb s nframes L R lat now).right_buffer := by
  have hs2 : Inv { s with mem := m } := hs
  have hf : ∀ j, j < transferable s nframes →
      frame_at m (queue_addr s j) = frame_at s.mem (queue_addr s j) := by
    intro j hj
    have hj2 : j < s.audio_occupancy := by
      unfold transferable at hj
      omega
    unfold frame_at
    rw [hm j 1 hj2 (by omega), hm j 2 hj2 (by omega), hm j 3 hj2 (by omega)]
    have h0 := hm j 0 hj2 (by omega)
    rw [Nat.add_zero] at h0
    rw [h0]
  constructor
  · funext j
    rw [drain_left_apply _ hs2, drain_left_apply _ hs]
    by_cases hj : j < transferable s nframes
    · have hj2 : j < transferable { s with mem := m } nframes := hj
      rw [if_pos hj, if_pos hj2]
      show convert_sample (frame_at m (queue_addr s j)).left = _
      rw [hf j hj]
    · have hj2 : ¬ j < transferable { s with mem := m } nframes := hj
      rw [if_neg hj, if_neg hj2]
  · funext j
    rw [drain_right_apply _ hs2, drain_right_apply _ hs]
    by_cases hj : j < transferable s nframes
    · have hj2 : j < transferable { s with mem := m } nframes := hj
      rw [if_pos hj, if_pos hj2]
      show convert_sample (frame_at m (queue_addr s j)).right = _
      rw [hf j hj]
    · have hj2 : ¬ j < transferable { s with mem := m } nframes := hj
      rw [if_neg hj, if_neg hj2]

/-- C18, counterexample: on the store `init` leaves and the 50-frame input `ramp`, the
part of `play` that runs before `pthread_mutex_lock` reads the tail cursor and writes the
buffer. The buffer byte at address 4097 holds 0 before it and 1 after it, and with the
tail cursor at 4100 instead of 4096 the same part leaves that byte at 0; `play` is that
part followed by the locked part. -/
theorem unlocked_copy_counterexample :
    (fresh_state.audio_lmb ≤ 4097 ∧ 4097 < fresh_state.audio_umb) ∧
    fresh_state.mem 4097 = 0 ∧
    (play_copy fresh_state ramp 50).1.mem 4097 = 1 ∧
    (play_copy { fresh_state with audio_eoq := 4100 } ramp 50).1.mem 4097 = 0 ∧
    play fresh_state ramp 50 =
      play_commit (play_copy fresh_state ramp 50).1 (play_copy fresh_state ramp 50).2 50 := by
  refine ⟨by decide, by decide, by decide, by decide, ?_⟩
  exact play_eq_copy_commit fresh_state ramp 50

/-- C18, amended: lock discipline of `play` against the drain callback. `play` is the
copy made before the lock is taken followed by the update made inside the critical
section. For a state satisfying the store invariants and a `play` within the capacity:
the copy changes neither the cursors, nor the bounds, nor the occupancy, nor any byte of
the buffered frames; the locked update changes no byte of memory and not the head
cursor; the output of the drain callback depends on no byte other than those of the
buffered frames; so a drain that runs between the copy and the locked update writes
the same port buffers as a drain before the copy, and copy, drain, locked update leave
the same state as the whole drain followed by the whole `play`. -/
theorem play_sections_against_drain (s : State) (hs : Inv s) (buf : Nat → Byte)
    (samples : Int) (h0 : 0 ≤ samples)
    (hcap : (s.audio_occupancy : Int) + samples ≤ ((buffer_size / 4 : Nat) : Int))
    (nframes : Nat) (L R : PortBuffer) (lat : jack_latency_range_t) (now : Int) :
    play s buf samples =
      play_commit (play_copy s buf samples).1 (play_copy s buf samples).2 samples ∧
    ((play_copy s buf samples).1.audio_toq = s.audio_toq ∧
      (play_copy s buf samples).1.audio_eoq = s.audio_eoq ∧
      (play_copy s buf samples).1.audio_lmb = s.audio_lmb ∧
      (play_copy s buf samples).1.audio_umb = s.audio_umb ∧
      (play_copy s buf samples).1.audio_occupancy = s.audio_occupancy) ∧
    (∀ i d, i < s.audio_occupancy → d < 4 →
      (play_copy s buf samples).1.mem (queue_addr s i + d) = s.mem (queue_addr s i + d)) ∧
    (∀ (s2 : State) (locals : PlayLocals),
      (play_commit s2 locals samples).2.mem = s2.mem ∧
      (play_commit s2 locals samples).2.audio_toq = s2.audio_toq) ∧
    (∀ m : Mem, (∀ i d, i < s.audio_occupancy → d < 4 →
        m (queue_addr s i + d) = s.mem (queue_addr s i + d)) →
      (jack_stream_write_cb { s with mem := m } nframes L R lat now).left_buffer =
        (jack_stream_write_cb s nframes L R lat now).left_buffer ∧
      (jack_stream_write_cb { s with mem := m } nframes L R lat now).right_buffer =
        (jack_stream_write_cb s nframes L R lat now).right_buffer) ∧
    ((jack_stream_write_cb (play_copy s buf samples).1 nframes L R lat now).left_buffer =
        (jack_stream_write_cb s nframes L R lat now).left_buffer ∧
      (jack_stream_write_cb (play_copy s buf samples).1 nframes L R lat now).right_buffer =
        (jack_stream_write_cb s nframes L R lat now).right_buffer) ∧
    play_commit (jack_stream_write_cb (play_copy s buf samples).1 nframes L R lat now).state
        (play_copy s buf samples).2 samples =
      play (jack_stream_write_cb s nframes L R lat now).state buf samples := by
  lift samples to ℕ using h0 with n
  have hcap2 : s.audio_occupancy + n ≤ buffer_size / 4 := by exact_mod_cast hcap
  have hkeep := fun i d hi hd => play_copy_keeps_byte s hs buf n hcap2 i d hi hd
  refine ⟨play_eq_copy_commit s buf n, ?_, hkeep, ?_, ?_, ?_, drain_then_commit s buf n nframes L R lat now⟩
  · rw [play_copy_state]
    exact ⟨rfl, rfl, rfl, rfl, rfl⟩
  · intro s2 locals
    unfold play_commit
    split <;> exact ⟨rfl, rfl⟩
  · intro m hm
    exact drain_outputs_congr_mem s hs m hm nframes L R lat now
  · have h := drain_outputs_congr_mem s hs (play_copy s buf n).1.mem hkeep nframes L R lat now
    rw [play_copy_state] at h ⊢
    exact h

/-- C18, witness: 30 frames pushed onto the run that crosses the upper bound, with a
drain of 80 frames in between. -/
theorem play_sections_against_drain_witness :
    (Inv wrapped_state ∧ (0 : Int) ≤ 30 ∧
      (wrapped_state.audio_occupancy : Int) + 30 ≤ ((buffer_size / 4 : Nat) : Int)) ∧
    (play wrapped_state sevens_bytes 30 =
      play_commit (play_copy wrapped_state sevens_bytes 30).1
        (play_copy wrapped_state sevens_bytes 30).2 30 ∧
    ((play_copy wrapped_state sevens_bytes 30).1.audio_toq = wrapped_state.audio_toq ∧
      (play_copy wrapped_state sevens_bytes 30).1.audio_eoq = wrapped_state.audio_eoq ∧
      (play_copy wrapped_state sevens_bytes 30).1.audio_lmb = wrapped_state.audio_lmb ∧
      (play_copy wrapped_state sevens_bytes 30).1.audio_umb = wrapped_state.audio_umb ∧
      (play_copy wrapped_state sevens_bytes 30).1.audio_occupancy
        = wrapped_state.audio_occupancy) ∧
    (∀ i d, i < wrapped_state.audio_occupancy → d < 4 →
      (play_copy wrapped_state sevens_bytes 30).1.mem (queue_addr wrapped_state i + d) =
        wrapped_state.mem (queue_addr wrapped_state i + d)) ∧
    (∀ (s2 : State) (locals : PlayLocals),
      (play_commit s2 locals 30).2.mem = s2.mem ∧
      (play_commit s2 locals 30).2.audio_toq = s2.audio_toq) ∧
    (∀ m : Mem, (∀ i d, i < wrapped_state.audio_occupancy → d < 4 →
        m (queue_addr wrapped_state i + d) = wrapped_state.mem (queue_addr wrapped_state i + d)) →
      (jack_stream_write_cb { wrapped_state with mem := m } 80 sevens sevens
          { min := 0, max := 0 } 0).left_buffer =
        (jack_stream_write_cb wrapped_state 80 sevens sevens { min := 0, max := 0 } 0).left_buffer ∧
      (jack_stream_write_cb { wrapped_state with mem := m } 80 sevens sevens
          { min := 0, max := 0 } 0).right_buffer =
        (jack_stream_write_cb wrapped_state 80 sevens sevens
          { min := 0, max := 0 } 0).right_buffer) ∧
    ((jack_stream_write_cb (play_copy wrapped_state sevens_bytes 30).1 80 sevens sevens
          { min := 0, max := 0 } 0).left_buffer =
        (jack_stream_write_cb wrapped_state 80 sevens sevens { min := 0, max := 0 } 0).left_buffer ∧
      (jack_stream_write_cb (play_copy wrapped_state sevens_bytes 30).1 80 sevens sevens
          { min := 0, max := 0 } 0).right_buffer =
        (jack_stream_write_cb wrapped_state 80 sevens sevens
          { min := 0, max := 0 } 0).right_buffer) ∧
    play_commit
        (jack_stream_write_cb (play_copy wrapped_state sevens_bytes 30).1 80 sevens sevens
          { min := 0, max := 0 } 0).state
        (play_copy wrapped_state sevens_bytes 30).2 30 =
      play (jack_stream_write_cb wrapped_state 80 sevens sevens { min := 0, max := 0 } 0).state
        sevens_bytes 30) :=
  ⟨⟨by decide, by decide, by decide⟩,
   play_sections_against_drain wrapped_state (by decide) sevens_bytes 30 (by decide) (by decide)
     80 sevens sevens { min := 0, max := 0 } 0⟩

end AudioJack
